import Mathlib

/-!
Verification of the netcollector pipeline (command routing, dispatch,
normalization, metric serialization) against its natural-language
specification.  The Python modules under `netcollector/` are shallowly
embedded: pure functions become Lean functions, the stateful dispatchers
become explicit state passing over a tick-based clock, fallible code
returns `Except`/`Option`, and Python's dynamically typed values are
modelled with an inductive value universe `PyVal`.
-/

namespace NetCollector

/-- A Python runtime value, as far as this codebase inspects one: `None`,
`bool`, `int`, `str`, plus an `other` constructor carrying the `str()`
rendering of any value of another type (floats, objects).  Note that in
Python `bool` is a subclass of `int`, which matters for `isinstance`
checks; the model keeps the two constructors separate and encodes the
subclass relation in `isinstanceInt` below. -/
inductive PyVal where
  | none
  | bool (b : Bool)
  | int (n : Int)
  | str (s : String)
  | other (rendered : String)
deriving DecidableEq, Repr

/-- Python `isinstance(v, int)`: true for `int` and for `bool`, because
`bool` is a subclass of `int`. -/
def isinstanceInt : PyVal → Bool
  | .int _ => true
  | .bool _ => true
  | _ => false

/-- Python `isinstance(v, str)`. -/
def isinstanceStr : PyVal → Bool
  | .str _ => true
  | _ => false

/-- Python `isinstance(v, bool)`. -/
def isinstanceBool : PyVal → Bool
  | .bool _ => true
  | _ => false

/-- The text an f-string interpolation `f"{value}"` produces for a value:
`str(value)`.  `True`/`False` for booleans, the decimal rendering for
ints, the string itself for strings, `None` for `None`. -/
def pyStr : PyVal → String
  | .none => "None"
  | .bool b => if b then "True" else "False"
  | .int n => toString n
  | .str s => s
  | .other r => r

/-- Python truthiness of a value (`if value:`). -/
def pyTruthy : PyVal → Bool
  | .none => false
  | .bool b => b
  | .int n => n != 0
  | .str s => s ≠ ""
  | .other _ => true

/-- `d.get(key)` on a Python dict modelled as an association list (Python
dicts preserve insertion order; keys are unique). -/
def pyDictGet (d : List (String × PyVal)) (key : String) : Option PyVal :=
  (d.find? (fun kv => kv.1 = key)).map (fun kv => kv.2)

/-! ## commander.py -/

/-- One directive of `EXECUTOR_MAP`: the executor (driver) name, the device
command texts, and the parse-hint parameters. -/
structure Directives where
  executor : String
  commands : List String
  params : List (String × PyVal)
deriving DecidableEq, Repr

/-- The static `EXECUTOR_MAP` of `commander.py`, as the total lookup
`executor_map[(device_type, collector)][collection_method]`: `none` models
a `KeyError` at either level. -/
def EXECUTOR_MAP (device_type collector collection_method : String) :
    Option Directives :=
  match device_type, collector, collection_method with
  | "cisco_xe", "interface", "ssh" =>
      some ⟨"netmiko", ["show interfaces"], [("use_genie", .bool true)]⟩
  | "cisco_asa", "vpn_session", "ssh" =>
      some ⟨"netmiko", ["show vpn-sessiondb"], [("use_textfsm", .bool true)]⟩
  | "cisco_ios", "bgp_session", "ssh" =>
      some ⟨"netmiko", ["show bgp all neighbor"], [("use_genie", .bool true)]⟩
  | "cisco_ios", "lldp_neighbors", "ssh" =>
      some ⟨"netmiko", ["show lldp neighbors"], [("use_textfsm", .bool true)]⟩
  | "cisco_xe", "bgp_session", "ssh" =>
      some ⟨"netmiko", ["show ip bgp neighbors"], [("use_genie", .bool true)]⟩
  | "juniper_junos", "bgp_session", "netconf" =>
      some ⟨"pyez", ["get-bgp-neighbor-information"], [("table", .str "NtcBgpTable")]⟩
  | _, _, _ => none

/-- The default of the `id` field of `Command`.  In the source the default
is `str(uuid.uuid4())`, an expression evaluated ONCE when the class body
is executed, so every instance built without an explicit `id` shares this
one fixed string; its concrete value is irrelevant and an arbitrary
representative is used here. -/
def COMMAND_DEFAULT_ID : String := "8b1f5c2e-0000-4000-8000-commanderuuid"

/-- The `Command` pydantic model of `commander.py`, generic over the type
`ρ` of the raw result a driver stores (Python types it `Optional[Any]`).
Timestamps are modelled as ticks of a `Nat` clock, `execution_time` as the
tick difference. -/
structure Command (ρ : Type) where
  executor : String
  collector : String
  collection_method : String
  command : String
  params : List (String × PyVal) := []
  result : Option ρ := none
  id : String := COMMAND_DEFAULT_ID
  timestamp : Option Nat := none
  start_time : Option Nat := none
  execution_time : Option Nat := none
deriving DecidableEq, Repr

/-- `Command.start_timing`: `self.start_time = datetime.now()`. -/
def Command.start_timing (c : Command ρ) (now : Nat) : Command ρ :=
  { c with start_time := some now }

/-- `Command.stop_timing`: sets `timestamp`, and `execution_time` when
`start_time` was set. -/
def Command.stop_timing (c : Command ρ) (now : Nat) : Command ρ :=
  match c.start_time with
  | some t0 => { c with timestamp := some now, execution_time := some (now - t0) }
  | none => { c with timestamp := some now }

/-- The `CommanderError` message raised by `create_commands` for a
combination absent from the executor map. -/
def commanderErrorMsg (device_type collector collection_method : String) : String :=
  s!"Unable to determine executor for: device_type='{device_type}', collector='{collector}', collection_method={collection_method}"

/-- The `Command` instance `create_commands` builds for one command text of
a directive (no `id` passed, so the shared default applies). -/
def mkCatalogCommand (collector collection_method : String) (d : Directives)
    (text : String) : Command ρ :=
  { command := text
    executor := d.executor
    collector := collector
    collection_method := collection_method
    params := d.params }

/-- `create_commands` of `commander.py`: walks the requested
`(collector, collection_method)` pairs in order, raises `CommanderError`
(modelled as `Except.error` with the exact message) at the first pair the
map does not know, otherwise extends the list with one `Command` per
command text of the directive. -/
def create_commands (device_type : String)
    (collectors : List (String × String)) : Except String (List (Command ρ)) :=
  match collectors with
  | [] => .ok []
  | (collector, method) :: rest =>
    match EXECUTOR_MAP device_type collector method with
    | none => .error (commanderErrorMsg device_type collector method)
    | some d =>
      match create_commands device_type rest with
      | .error e => .error e
      | .ok cmds =>
        .ok (d.commands.map (mkCatalogCommand collector method d) ++ cmds)

/-- The commands one requested pair contributes to the result of
`create_commands` (empty when the pair is absent from the map). -/
def expandCollector (device_type : String) (p : String × String) :
    List (Command ρ) :=
  match EXECUTOR_MAP device_type p.1 p.2 with
  | none => []
  | some d => d.commands.map (mkCatalogCommand p.1 p.2 d)

/-- Every directive stored in the executor map lists at least one command
text. -/
theorem EXECUTOR_MAP_commands_ne_nil (dt c m : String) (d : Directives)
    (h : EXECUTOR_MAP dt c m = some d) : d.commands ≠ [] := by
  unfold EXECUTOR_MAP at h
  split at h <;> simp_all <;> (subst h; decide)

/-- When every requested pair is in the map, `create_commands` returns the
ordered concatenation of each pair's expansion. -/
theorem create_commands_ok_aux (ρ : Type) (dt : String) :
    ∀ collectors : List (String × String),
      (∀ p ∈ collectors, (EXECUTOR_MAP dt p.1 p.2).isSome) →
      create_commands (ρ := ρ) dt collectors
        = .ok (collectors.flatMap (expandCollector dt)) := by
  intro collectors
  induction collectors with
  | nil => intro _; rfl
  | cons q rest ih =>
    intro h
    obtain ⟨qc, qm⟩ := q
    obtain ⟨d, hd⟩ := Option.isSome_iff_exists.mp (h _ (List.mem_cons_self _ _))
    have hrest := ih (fun p hp => h p (List.mem_cons_of_mem _ hp))
    simp only [create_commands, hd, hrest, List.flatMap_cons]
    simp [expandCollector, hd]

/-- `create_commands` raises `CommanderError` naming the first requested
pair absent from the map. -/
theorem create_commands_error_aux (ρ : Type) (dt : String) :
    ∀ (collectors : List (String × String)) (p : String × String),
      collectors.find? (fun q => (EXECUTOR_MAP dt q.1 q.2).isNone) = some p →
      create_commands (ρ := ρ) dt collectors
        = .error (commanderErrorMsg dt p.1 p.2) := by
  intro collectors
  induction collectors with
  | nil => intro p hp; simp [List.find?] at hp
  | cons q rest ih =>
    intro p hp
    obtain ⟨qc, qm⟩ := q
    cases hd : EXECUTOR_MAP dt qc qm with
    | none =>
      simp [List.find?_cons, hd] at hp
      subst hp
      simp [create_commands, hd]
    | some d =>
      simp [List.find?_cons, hd] at hp
      simp [create_commands, hd, ih p hp]

/-- Every `Command` returned by `create_commands` carries the shared
class-level default `id`. -/
theorem create_commands_id_aux (ρ : Type) (dt : String) :
    ∀ (collectors : List (String × String)) (cmds : List (Command ρ)),
      create_commands dt collectors = .ok cmds →
      ∀ c ∈ cmds, c.id = COMMAND_DEFAULT_ID := by
  intro collectors
  induction collectors with
  | nil =>
    intro cmds h c hc
    simp only [create_commands, Except.ok.injEq] at h
    subst h
    simp at hc
  | cons q rest ih =>
    intro cmds h c hc
    obtain ⟨qc, qm⟩ := q
    simp only [create_commands] at h
    cases hd : EXECUTOR_MAP dt qc qm with
    | none => rw [hd] at h; cases h
    | some d =>
      rw [hd] at h
      cases hrest : create_commands (ρ := ρ) dt rest with
      | error e => rw [hrest] at h; cases h
      | ok cs =>
        rw [hrest] at h
        cases h
        rcases List.mem_append.mp hc with hmap | hmem
        · obtain ⟨text, _, htext⟩ := List.mem_map.mp hmap
          subst htext
          rfl
        · exact ih cs hrest c hmem

/-- C1: for every device type and requested list of (resource kind, access
method) pairs over the static catalog: when every pair resolves,
`create_commands` returns, in request order, one `Command` per command
text of each matching entry (in listed order; the flattening
`collectors.flatMap (expandCollector dt)` is exactly that), every command
carrying the entry's executor, parse hints, resource kind and access
method, and the list is non-empty whenever the request is; when some pair
does not resolve, it returns `CommanderError` naming the first missing
(device_type, collector, collection_method) triple and no partial list.
The function performs no device I/O (it is a pure catalog lookup). -/
theorem create_commands_routing (ρ : Type) (device_type : String)
    (collectors : List (String × String)) :
    ((∀ p ∈ collectors, (EXECUTOR_MAP device_type p.1 p.2).isSome) →
      create_commands (ρ := ρ) device_type collectors
          = .ok (collectors.flatMap (expandCollector device_type)) ∧
      (∀ cmd ∈ (collectors.flatMap (expandCollector device_type) : List (Command ρ)),
        ∃ p ∈ collectors, ∃ d, EXECUTOR_MAP device_type p.1 p.2 = some d ∧
          cmd.executor = d.executor ∧ cmd.params = d.params ∧
          cmd.collector = p.1 ∧ cmd.collection_method = p.2 ∧
          cmd.command ∈ d.commands) ∧
      (collectors ≠ [] →
        (collectors.flatMap (expandCollector device_type) : List (Command ρ)) ≠ [])) ∧
    (∀ p : String × String,
      collectors.find? (fun q => (EXECUTOR_MAP device_type q.1 q.2).isNone) = some p →
      create_commands (ρ := ρ) device_type collectors
        = .error (commanderErrorMsg device_type p.1 p.2)) := by
  constructor
  · intro hall
    refine ⟨create_commands_ok_aux ρ device_type collectors hall, ?_, ?_⟩
    · intro cmd hcmd
      obtain ⟨p, hp, hin⟩ := List.mem_flatMap.mp hcmd
      refine ⟨p, hp, ?_⟩
      obtain ⟨d, hd⟩ := Option.isSome_iff_exists.mp (hall p hp)
      simp only [expandCollector, hd] at hin
      obtain ⟨text, htext, hmk⟩ := List.mem_map.mp hin
      subst hmk
      exact ⟨d, hd, rfl, rfl, rfl, rfl, htext⟩
    · intro hne
      cases collectors with
      | nil => exact absurd rfl hne
      | cons q rest =>
        obtain ⟨d, hd⟩ := Option.isSome_iff_exists.mp (hall q (List.mem_cons_self _ _))
        have : expandCollector (ρ := ρ) device_type q ≠ [] := by
          simp only [expandCollector, hd, ne_eq, List.map_eq_nil_iff]
          exact EXECUTOR_MAP_commands_ne_nil device_type q.1 q.2 d hd
        simp only [List.flatMap_cons, ne_eq, List.append_eq_nil]
        intro hcon
        exact this hcon.1
  · exact create_commands_error_aux ρ device_type collectors

/-- Witness for C1: the request (interface, ssh) against device type
cisco_xe resolves to the single catalog command, and the request
(vpn_session, ssh) against cisco_xe is rejected with the error naming the
triple. -/
theorem create_commands_routing_witness :
    create_commands (ρ := Unit) "cisco_xe" [("interface", "ssh")]
        = .ok [mkCatalogCommand "interface" "ssh"
            ⟨"netmiko", ["show interfaces"], [("use_genie", .bool true)]⟩
            "show interfaces"] ∧
    create_commands (ρ := Unit) "cisco_xe" [("vpn_session", "ssh")]
        = .error (commanderErrorMsg "cisco_xe" "vpn_session" "ssh") := by
  constructor
  · have h := (create_commands_routing Unit "cisco_xe" [("interface", "ssh")]).1
      (by decide)
    rw [h.1]
    rfl
  · exact (create_commands_routing Unit "cisco_xe" [("vpn_session", "ssh")]).2
      ("vpn_session", "ssh") (by decide)

/-- C10: the default of `Command.id` is the expression `str(uuid.uuid4())`
evaluated once at class-definition time, so any two Commands built without
an explicit id — in particular all Commands produced by `create_commands`,
within one batch or across batches — share one fixed id string; the id
therefore does not distinguish Commands. -/
theorem command_default_id_not_unique (ρ₁ ρ₂ : Type) (dt₁ dt₂ : String)
    (cols₁ cols₂ : List (String × String))
    (cmds₁ : List (Command ρ₁)) (cmds₂ : List (Command ρ₂))
    (h₁ : create_commands dt₁ cols₁ = .ok cmds₁)
    (h₂ : create_commands dt₂ cols₂ = .ok cmds₂) :
    ∀ c₁ ∈ cmds₁, ∀ c₂ ∈ cmds₂,
      c₁.id = COMMAND_DEFAULT_ID ∧ c₂.id = COMMAND_DEFAULT_ID ∧ c₁.id = c₂.id := by
  intro c₁ hc₁ c₂ hc₂
  have e₁ := create_commands_id_aux ρ₁ dt₁ cols₁ cmds₁ h₁ c₁ hc₁
  have e₂ := create_commands_id_aux ρ₂ dt₂ cols₂ cmds₂ h₂ c₂ hc₂
  exact ⟨e₁, e₂, e₁.trans e₂.symm⟩

/-- Witness for C10: two Commands from two different batches (different
collectors) carry the same id. -/
theorem command_default_id_not_unique_witness :
    (mkCatalogCommand (ρ := Unit) "interface" "ssh"
        ⟨"netmiko", ["show interfaces"], [("use_genie", .bool true)]⟩
        "show interfaces").id =
    (mkCatalogCommand (ρ := Unit) "bgp_session" "ssh"
        ⟨"netmiko", ["show ip bgp neighbors"], [("use_genie", .bool true)]⟩
        "show ip bgp neighbors").id :=
  (command_default_id_not_unique Unit Unit "cisco_xe" "cisco_xe"
      [("interface", "ssh")] [("bgp_session", "ssh")]
      [mkCatalogCommand "interface" "ssh"
        ⟨"netmiko", ["show interfaces"], [("use_genie", .bool true)]⟩
        "show interfaces"]
      [mkCatalogCommand "bgp_session" "ssh"
        ⟨"netmiko", ["show ip bgp neighbors"], [("use_genie", .bool true)]⟩
        "show ip bgp neighbors"]
      rfl rfl
      _ (List.mem_singleton.mpr rfl) _ (List.mem_singleton.mpr rfl)).2.2

/-! ## normalizer/influx.py -/

/-- `value.replace(" ", r"\ ")`: every space escaped with a backslash.
Since the pattern is the single character space, Python's substring
replacement is exactly this character-wise expansion. -/
def escapeSpaces (s : String) : String :=
  ⟨s.data.flatMap (fun c => if c = ' ' then ['\\', ' '] else [c])⟩

/-- The text one (key, value) pair contributes to `tags_string` in
`format_influx_metrics`: nothing when the value is `None`; otherwise
`,key=value`, with spaces escaped when the value is a string. -/
def influxTagPiece (key : String) (v : PyVal) : String :=
  match v with
  | .none => ""
  | .str s => "," ++ key ++ "=" ++ escapeSpaces s
  | v => "," ++ key ++ "=" ++ pyStr v

/-- The text one (key, value) pair contributes to `data_string` in
`format_influx_metrics` (the separator aside).  The `isinstance` chain is
kept in source order: the `int` test comes first and also captures
booleans (Python `bool` is a subclass of `int`), so the later dedicated
`bool` branch is unreachable. -/
def influxFieldPiece (key : String) (v : PyVal) : String :=
  if isinstanceInt v then key ++ "=" ++ pyStr v ++ "i"
  else if isinstanceStr v then key ++ "=\"" ++ escapeSpaces (pyStr v) ++ "\""
  else if isinstanceBool v then
    (if pyTruthy v then key ++ "=true" else key ++ "=false")
  else key ++ "=" ++ pyStr v

/-- The `tags_string` accumulation loop of `format_influx_metrics`. -/
def influxTagsString (tags : List (String × PyVal)) : String :=
  tags.foldl (fun acc kv => acc ++ influxTagPiece kv.1 kv.2) ""

/-- The `data_string` accumulation loop of `format_influx_metrics`: a comma
is prepended whenever the accumulator is already non-empty. -/
def influxDataString (data : List (String × PyVal)) : String :=
  data.foldl
    (fun acc kv =>
      (if acc ≠ "" then acc ++ "," else acc) ++ influxFieldPiece kv.1 kv.2)
    ""

/-- `format_influx_metrics` of `normalizer/influx.py`. -/
def format_influx_metrics (series : String) (data : List (String × PyVal))
    (tags : List (String × PyVal)) : String :=
  series ++ influxTagsString tags ++ " " ++ influxDataString data

/-- The tag value rendering the claim describes (string spaces escaped,
other values as printed); tags and fields agree on this in source and
claim. -/
def tagValText (v : PyVal) : String :=
  match v with
  | .str s => escapeSpaces s
  | v => pyStr v

/-- One field rendered as claim C5 predicts: integers with a trailing `i`,
booleans as bare `true`/`false`, strings quoted with spaces escaped,
everything else as printed. -/
def claimFieldText (key : String) (v : PyVal) : String :=
  match v with
  | .bool b => key ++ "=" ++ (if b then "true" else "false")
  | .int n => key ++ "=" ++ toString n ++ "i"
  | .str s => key ++ "=\"" ++ escapeSpaces s ++ "\""
  | v => key ++ "=" ++ pyStr v

/-- One field as the code actually renders it: booleans fall into the
integer branch and print as `True`/`False` with the `i` suffix. -/
def amendedFieldText (key : String) (v : PyVal) : String :=
  match v with
  | .bool b => key ++ "=" ++ (if b then "True" else "False") ++ "i"
  | .int n => key ++ "=" ++ toString n ++ "i"
  | .str s => key ++ "=\"" ++ escapeSpaces s ++ "\""
  | v => key ++ "=" ++ pyStr v

/-- Ordered concatenation of a list of strings. -/
def strJoin : List String → String
  | [] => ""
  | s :: rest => s ++ strJoin rest

/-- A string with a non-empty right summand is non-empty. -/
theorem append_ne_empty_right (s t : String) (h : t ≠ "") : s ++ t ≠ "" := by
  intro he
  apply h
  have hl := congrArg String.length he
  rw [String.length_append, show ("" : String).length = 0 from rfl] at hl
  have ht : t.length = 0 := by omega
  cases t with
  | mk data =>
    cases data with
    | nil => rfl
    | cons c cs => simp [String.length] at ht

/-- The whole-line shape the (amended) claim describes:
`series[,tag=val...] field=val[,field=val...]`, null-valued tags skipped,
tags and fields in caller (insertion) order. -/
def amendedInfluxLine (series : String) (data tags : List (String × PyVal)) :
    String :=
  series
    ++ strJoin ((tags.filter (fun kv => kv.2 ≠ .none)).map
        (fun kv => "," ++ kv.1 ++ "=" ++ tagValText kv.2))
    ++ " "
    ++ (match data with
        | [] => ""
        | kv :: rest =>
          amendedFieldText kv.1 kv.2
            ++ strJoin (rest.map
                (fun kv => "," ++ amendedFieldText kv.1 kv.2)))

theorem influxTagsString_acc (tags : List (String × PyVal)) :
    ∀ acc : String,
      tags.foldl (fun a kv => a ++ influxTagPiece kv.1 kv.2) acc
        = acc ++ tags.foldl (fun a kv => a ++ influxTagPiece kv.1 kv.2) "" := by
  induction tags with
  | nil => intro acc; simp [String.append_empty]
  | cons kv rest ih =>
    intro acc
    simp only [List.foldl_cons]
    rw [ih (acc ++ influxTagPiece kv.1 kv.2),
      ih ("" ++ influxTagPiece kv.1 kv.2), String.empty_append,
      String.append_assoc]

theorem influxTagsString_eq_join (tags : List (String × PyVal)) :
    influxTagsString tags
      = strJoin ((tags.filter (fun kv => kv.2 ≠ .none)).map
          (fun kv => "," ++ kv.1 ++ "=" ++ tagValText kv.2)) := by
  induction tags with
  | nil => rfl
  | cons kv rest ih =>
    obtain ⟨key, v⟩ := kv
    rw [influxTagsString, List.foldl_cons, influxTagsString_acc rest,
      String.empty_append]
    rw [influxTagsString] at ih
    rw [ih]
    cases v <;>
      simp [influxTagPiece, tagValText, strJoin, List.filter_cons, pyStr,
        String.empty_append, String.append_assoc]

theorem influxFieldPiece_ne_empty (key : String) (v : PyVal) :
    influxFieldPiece key v ≠ "" := by
  intro h
  have hl := congrArg String.length h
  cases v with
  | bool b =>
    simp [influxFieldPiece, isinstanceInt, pyStr, String.length_append] at hl
    exact absurd hl.1.1.2 (by decide)
  | int n =>
    simp [influxFieldPiece, isinstanceInt, pyStr, String.length_append] at hl
    exact absurd hl.1.1.2 (by decide)
  | str s =>
    simp [influxFieldPiece, isinstanceInt, isinstanceStr, pyStr,
      String.length_append] at hl
    exact absurd hl.1.1.2 (by decide)
  | none =>
    simp [influxFieldPiece, isinstanceInt, isinstanceStr, isinstanceBool,
      pyStr, String.length_append] at hl
    exact absurd hl.1.2 (by decide)
  | other r =>
    simp [influxFieldPiece, isinstanceInt, isinstanceStr, isinstanceBool,
      pyStr, String.length_append] at hl
    exact absurd hl.1.2 (by decide)

theorem influxFieldPiece_eq_amended (key : String) (v : PyVal) :
    influxFieldPiece key v = amendedFieldText key v := by
  cases v with
  | bool b =>
    cases b <;>
      simp [influxFieldPiece, amendedFieldText, isinstanceInt, pyStr,
        String.append_assoc]
  | int n => rfl
  | str s => rfl
  | none => rfl
  | other r => rfl

theorem influxDataString_acc (data : List (String × PyVal)) :
    ∀ acc : String, acc ≠ "" →
      data.foldl
          (fun a kv =>
            (if a ≠ "" then a ++ "," else a) ++ influxFieldPiece kv.1 kv.2)
          acc
        = acc ++ strJoin (data.map
            (fun kv => "," ++ influxFieldPiece kv.1 kv.2)) := by
  induction data with
  | nil => intro acc _; simp [strJoin, String.append_empty]
  | cons kv rest ih =>
    intro acc hacc
    simp only [List.foldl_cons, if_pos hacc]
    have hne : acc ++ "," ++ influxFieldPiece kv.1 kv.2 ≠ "" :=
      append_ne_empty_right _ _ (influxFieldPiece_ne_empty kv.1 kv.2)
    rw [ih _ hne]
    simp [strJoin, String.append_assoc]

theorem influxDataString_eq_join (data : List (String × PyVal)) :
    influxDataString data
      = match data with
        | [] => ""
        | kv :: rest =>
          influxFieldPiece kv.1 kv.2
            ++ strJoin (rest.map
                (fun kv => "," ++ influxFieldPiece kv.1 kv.2)) := by
  cases data with
  | nil => rfl
  | cons kv rest =>
    rw [influxDataString, List.foldl_cons]
    rw [show ((if ("" : String) ≠ "" then ("" : String) ++ "," else "")
          ++ influxFieldPiece kv.1 kv.2)
        = influxFieldPiece kv.1 kv.2 by simp [String.empty_append]]
    exact influxDataString_acc rest _ (influxFieldPiece_ne_empty kv.1 kv.2)

/-- C5 (amended): the serializer output is
`series[,tag=val...] field=val[,field=val...]` with spaces in string
values escaped by a backslash, integer fields suffixed `i`, null-valued
tags skipped entirely, tags and fields in caller insertion order, other
values rendered by `str()` — but a boolean field falls into the integer
`isinstance` branch (Python `bool` is a subclass of `int`) and renders as
`Truei`/`Falsei`, not as bare `true`/`false`; the claim's concrete example
serializes as stated. -/
theorem format_influx_metrics_spec (series : String)
    (data tags : List (String × PyVal)) :
    format_influx_metrics series data tags = amendedInfluxLine series data tags
      ∧
    format_influx_metrics "series" [("active", .int 5)] [("name", .str "Group 1")]
      = "series,name=Group\\ 1 active=5i" := by
  constructor
  · rw [format_influx_metrics, amendedInfluxLine.eq_def,
      influxTagsString_eq_join, influxDataString_eq_join]
    cases data with
    | nil => rfl
    | cons kv rest => simp only [influxFieldPiece_eq_amended]
  · rfl

/-- C5 counterexample: a boolean field value does not serialize as bare
`true` as the claim states; it takes the integer branch and serializes as
`Truei`. -/
theorem influx_bool_field_counterexample :
    format_influx_metrics "s" [("flag", .bool true)] [] = "s flag=Truei" ∧
    "s " ++ claimFieldText "flag" (.bool true) = "s flag=true" ∧
    "s flag=Truei" ≠ "s flag=true" := by
  refine ⟨rfl, rfl, ?_⟩
  decide

/-! ## normalizer/vpn_sessions.py — slugify

`slugify` runs, in order: `re.sub(r"[^\-\.\w\s]", "", s)`, `.strip()`,
`.lower()`, `re.sub(r"[\-\.\s]+", "-", s)`, `.encode("ASCII",
"ignore").decode()`, `[:length]`.  The embedding models the character
classes of Python's `str` regexes faithfully on the code points below
0x100 (ASCII plus Latin-1): `\w` is ASCII letters, digits, underscore and
the Latin-1 letters (0xC0–0xFF except the multiplication and division
signs 0xD7/0xF7); `\s` (and `str.strip`'s notion of whitespace) is
0x09–0x0D, 0x1C–0x1F, space, 0x85 and 0xA0; `str.lower` maps 0x41–0x5A
and 0xC0–0xDE (except 0xD7) up by 32.  Inputs in the theorems below stay
within this fragment. -/

/-- Code points Python's `\s` (and `str.strip`) treats as whitespace,
restricted to points below 0x100. -/
def SpaceCode (n : Nat) : Prop :=
  (9 ≤ n ∧ n ≤ 13) ∨ n = 32 ∨ (28 ≤ n ∧ n ≤ 31) ∨ n = 133 ∨ n = 160

instance (n : Nat) : Decidable (SpaceCode n) := by unfold SpaceCode; infer_instance

/-- Code points Python's `\w` matches, restricted to points below 0x100. -/
def WordCode (n : Nat) : Prop :=
  (65 ≤ n ∧ n ≤ 90) ∨ (97 ≤ n ∧ n ≤ 122) ∨ (48 ≤ n ∧ n ≤ 57) ∨ n = 95 ∨
    (192 ≤ n ∧ n ≤ 255 ∧ n ≠ 215 ∧ n ≠ 247)

instance (n : Nat) : Decidable (WordCode n) := by unfold WordCode; infer_instance

def pySpaceChar (c : Char) : Bool := decide (SpaceCode c.toNat)

def pyWordChar (c : Char) : Bool := decide (WordCode c.toNat)

/-- The class `[\-\.\w\s]` kept by slugify's first substitution. -/
def slugKeepChar (c : Char) : Bool :=
  decide (c.toNat = 45 ∨ c.toNat = 46 ∨ WordCode c.toNat ∨ SpaceCode c.toNat)

/-- The class `[\-\.\s]` whose runs the third substitution collapses. -/
def collapseClassChar (c : Char) : Bool :=
  decide (c.toNat = 45 ∨ c.toNat = 46 ∨ SpaceCode c.toNat)

/-- Python `str.lower` on the modelled fragment: ASCII `A`–`Z` and Latin-1
`À`–`Þ` (except `×`) move up by 32, everything else is unchanged. -/
def pyToLower (c : Char) : Char :=
  if (65 ≤ c.toNat ∧ c.toNat ≤ 90) ∨
      (192 ≤ c.toNat ∧ c.toNat ≤ 222 ∧ c.toNat ≠ 215)
  then Char.ofNat (c.toNat + 32) else c

/-- Python `str.strip()`: drop whitespace from both ends. -/
def pyStrip (l : List Char) : List Char :=
  ((l.dropWhile pySpaceChar).reverse.dropWhile pySpaceChar).reverse

/-- `re.sub(r"[\-\.\s]+", "-", ·)`: each maximal run of collapse-class
characters becomes one hyphen.  The boolean records whether the scanner
stands inside a run. -/
def collapseRuns : Bool → List Char → List Char
  | _, [] => []
  | inRun, c :: rest =>
    if collapseClassChar c then
      if inRun then collapseRuns true rest
      else '-' :: collapseRuns true rest
    else c :: collapseRuns false rest

/-- The slugify pipeline on the character list, in source order: keep-class
filter, strip, lower, collapse, ASCII filter, truncate. -/
def slugifyChars (l : List Char) (len : Nat) : List Char :=
  ((collapseRuns false
      ((pyStrip (l.filter slugKeepChar)).map pyToLower)).filter
    (fun c => c.toNat ≤ 127)).take len

/-- `slugify` of `normalizer/vpn_sessions.py` (default length 50). -/
def slugify (s : String) (len : Nat) : String := ⟨slugifyChars s.data len⟩

theorem char_toNat_ofNat (n : Nat) (h : n < 0xD800) : (Char.ofNat n).toNat = n := by
  have hv : n.isValidChar := Or.inl h
  simp [Char.ofNat, hv, Char.ofNatAux, Char.toNat, UInt32.toNat]

theorem char_eq_of_toNat_eq {c d : Char} (h : c.toNat = d.toNat) : c = d := by
  have := congrArg Char.ofNat h
  rwa [Char.ofNat_toNat, Char.ofNat_toNat] at this

theorem pyToLower_toNat (c : Char) :
    (pyToLower c).toNat =
      if (65 ≤ c.toNat ∧ c.toNat ≤ 90) ∨
          (192 ≤ c.toNat ∧ c.toNat ≤ 222 ∧ c.toNat ≠ 215)
      then c.toNat + 32 else c.toNat := by
  unfold pyToLower
  by_cases h : (65 ≤ c.toNat ∧ c.toNat ≤ 90) ∨
      (192 ≤ c.toNat ∧ c.toNat ≤ 222 ∧ c.toNat ≠ 215)
  · rw [if_pos h, if_pos h]
    exact char_toNat_ofNat _ (by omega)
  · rw [if_neg h, if_neg h]

theorem pyToLower_fixed (c : Char)
    (h : ¬((65 ≤ c.toNat ∧ c.toNat ≤ 90) ∨
        (192 ≤ c.toNat ∧ c.toNat ≤ 222 ∧ c.toNat ≠ 215))) :
    pyToLower c = c := by
  unfold pyToLower; rw [if_neg h]

theorem pyToLower_idem (c : Char) : pyToLower (pyToLower c) = pyToLower c := by
  by_cases h : (65 ≤ c.toNat ∧ c.toNat ≤ 90) ∨
      (192 ≤ c.toNat ∧ c.toNat ≤ 222 ∧ c.toNat ≠ 215)
  · have h1 := pyToLower_toNat c
    rw [if_pos h] at h1
    apply pyToLower_fixed
    omega
  · rw [pyToLower_fixed c h, pyToLower_fixed c h]

theorem pyToLower_ascii (c : Char) (h : c.toNat ≤ 127) :
    (pyToLower c).toNat ≤ 127 := by
  have h1 := pyToLower_toNat c
  by_cases hc : (65 ≤ c.toNat ∧ c.toNat ≤ 90) ∨
      (192 ≤ c.toNat ∧ c.toNat ≤ 222 ∧ c.toNat ≠ 215)
  · rw [if_pos hc] at h1; omega
  · rw [if_neg hc] at h1; omega

theorem slugKeepChar_pyToLower (c : Char) (h : slugKeepChar c = true) :
    slugKeepChar (pyToLower c) = true := by
  have h1 := pyToLower_toNat c
  simp only [slugKeepChar, WordCode, SpaceCode, decide_eq_true_eq] at h ⊢
  by_cases hc : (65 ≤ c.toNat ∧ c.toNat ≤ 90) ∨
      (192 ≤ c.toNat ∧ c.toNat ≤ 222 ∧ c.toNat ≠ 215)
  · rw [if_pos hc] at h1; omega
  · rw [if_neg hc] at h1; omega

theorem word_of_keep_not_coll (c : Char) (hk : slugKeepChar c = true)
    (hc : collapseClassChar c = false) : pyWordChar c = true := by
  simp only [slugKeepChar, collapseClassChar, pyWordChar, WordCode, SpaceCode,
    decide_eq_true_eq, decide_eq_false_iff_not] at hk hc ⊢
  omega

theorem keep_of_out_char (c : Char)
    (h : c = '-' ∨ (pyWordChar c = true ∧ pyToLower c = c)) :
    slugKeepChar c = true := by
  rcases h with rfl | ⟨hw, _⟩
  · decide
  · simp only [pyWordChar, slugKeepChar, WordCode, SpaceCode,
      decide_eq_true_eq] at hw ⊢
    omega

theorem not_space_of_out_char (c : Char)
    (h : c = '-' ∨ (pyWordChar c = true ∧ pyToLower c = c)) :
    pySpaceChar c = false := by
  rcases h with rfl | ⟨hw, _⟩
  · decide
  · simp only [pyWordChar, pySpaceChar, WordCode, SpaceCode,
      decide_eq_true_eq, decide_eq_false_iff_not] at hw ⊢
    omega

theorem lower_fixed_of_out_char (c : Char)
    (h : c = '-' ∨ (pyWordChar c = true ∧ pyToLower c = c)) :
    pyToLower c = c := by
  rcases h with rfl | ⟨_, hl⟩
  · decide
  · exact hl

theorem dash_of_coll_out_char (c : Char)
    (h : c = '-' ∨ (pyWordChar c = true ∧ pyToLower c = c))
    (hc : collapseClassChar c = true) : c = '-' := by
  rcases h with rfl | ⟨hw, _⟩
  · rfl
  · exfalso
    simp only [pyWordChar, collapseClassChar, WordCode, SpaceCode,
      decide_eq_true_eq] at hw hc
    omega

/-- Every character the collapse substitution emits is either the hyphen
it writes for a run or a non-collapse-class character of its input. -/
theorem mem_collapseRuns : ∀ (b : Bool) (l : List Char) (c : Char),
    c ∈ collapseRuns b l →
    c = '-' ∨ (c ∈ l ∧ collapseClassChar c = false) := by
  intro b l
  induction l generalizing b with
  | nil => intro c hc; simp [collapseRuns] at hc
  | cons d rest ih =>
    intro c hc
    by_cases hd : collapseClassChar d
    · cases b with
      | true =>
        simp only [collapseRuns, if_pos hd, if_pos] at hc
        rcases ih true c hc with h | ⟨hm, hnc⟩
        · exact Or.inl h
        · exact Or.inr ⟨List.mem_cons_of_mem _ hm, hnc⟩
      | false =>
        simp only [collapseRuns, if_pos hd] at hc
        rcases List.mem_cons.mp hc with rfl | hc2
        · exact Or.inl rfl
        · rcases ih true c hc2 with h | ⟨hm, hnc⟩
          · exact Or.inl h
          · exact Or.inr ⟨List.mem_cons_of_mem _ hm, hnc⟩
    · simp only [collapseRuns, if_neg hd] at hc
      rcases List.mem_cons.mp hc with rfl | hc2
      · exact Or.inr ⟨List.mem_cons_self _ _, by simpa using hd⟩
      · rcases ih false c hc2 with h | ⟨hm, hnc⟩
        · exact Or.inl h
        · exact Or.inr ⟨List.mem_cons_of_mem _ hm, hnc⟩

/-- With the scanner inside a run, the first emitted character is not of
the collapse class. -/
theorem collapseRuns_true_head : ∀ l : List Char,
    collapseRuns true l = [] ∨
    ∃ c rest, collapseRuns true l = c :: rest ∧ collapseClassChar c = false := by
  intro l
  induction l with
  | nil => exact Or.inl rfl
  | cons d rest ih =>
    by_cases hd : collapseClassChar d
    · simpa only [collapseRuns, if_pos hd, if_pos] using ih
    · exact Or.inr ⟨d, collapseRuns false rest,
        by simp only [collapseRuns, if_neg hd], by simpa using hd⟩

/-- No two adjacent characters both of the collapse class. -/
def noAdjColl : List Char → Bool
  | [] => true
  | [_] => true
  | a :: b :: rest =>
    (!(collapseClassChar a && collapseClassChar b)) && noAdjColl (b :: rest)

theorem noAdjColl_of_cons {a : Char} {l : List Char}
    (h : noAdjColl (a :: l) = true) : noAdjColl l = true := by
  cases l with
  | nil => rfl
  | cons b rest => exact (Bool.and_eq_true_iff.mp h).2

theorem noAdjColl_cons_of_head (d : Char) (l : List Char)
    (hl : noAdjColl l = true)
    (h : collapseClassChar d = false ∨
      l = [] ∨ ∃ c rest, l = c :: rest ∧ collapseClassChar c = false) :
    noAdjColl (d :: l) = true := by
  cases l with
  | nil => rfl
  | cons c rest =>
    show ((!(collapseClassChar d && collapseClassChar c))
      && noAdjColl (c :: rest)) = true
    rw [Bool.and_eq_true_iff]
    refine ⟨?_, hl⟩
    rcases h with hd | he | ⟨c', rest', heq, hc⟩
    · simp [hd]
    · cases he
    · cases heq; simp [hc]

theorem noAdjColl_collapseRuns : ∀ (b : Bool) (l : List Char),
    noAdjColl (collapseRuns b l) = true := by
  intro b l
  induction l generalizing b with
  | nil => rfl
  | cons d rest ih =>
    by_cases hd : collapseClassChar d
    · cases b with
      | true => simpa only [collapseRuns, if_pos hd, if_pos] using ih true
      | false =>
        simp only [collapseRuns, if_pos hd]
        exact noAdjColl_cons_of_head _ _ (ih true)
          (Or.inr (collapseRuns_true_head rest))
    · simp only [collapseRuns, if_neg hd]
      exact noAdjColl_cons_of_head _ _ (ih false) (Or.inl (by simpa using hd))

theorem noAdjColl_take : ∀ (l : List Char) (n : Nat),
    noAdjColl l = true → noAdjColl (l.take n) = true := by
  intro l
  induction l with
  | nil => intro n _; simp [List.take_nil]; rfl
  | cons a rest ih =>
    intro n h
    cases n with
    | zero => rfl
    | succ m =>
      rw [List.take_succ_cons]
      cases rest with
      | nil => simp [List.take_nil]; cases m <;> rfl
      | cons b r =>
        have hab := (Bool.and_eq_true_iff.mp h).1
        have h2 := (Bool.and_eq_true_iff.mp h).2
        cases m with
        | zero => rfl
        | succ k =>
          rw [List.take_succ_cons]
          show ((!(collapseClassChar a && collapseClassChar b))
              && noAdjColl (b :: List.take k r)) = true
          have h3 := ih (k + 1) h2
          rw [List.take_succ_cons] at h3
          rw [Bool.and_eq_true_iff]
          exact ⟨hab, h3⟩

theorem collapseRuns_true_eq_false (l : List Char)
    (h : l = [] ∨ ∃ c rest, l = c :: rest ∧ collapseClassChar c = false) :
    collapseRuns true l = collapseRuns false l := by
  rcases h with rfl | ⟨c, rest, rfl, hc⟩
  · rfl
  · simp only [collapseRuns, if_neg (by simp [hc] : ¬collapseClassChar c = true)]

/-- The collapse substitution fixes a list whose collapse-class characters
are all the hyphen and never adjacent. -/
theorem collapseRuns_eq_self : ∀ l : List Char,
    (∀ c ∈ l, collapseClassChar c = true → c = '-') →
    noAdjColl l = true → collapseRuns false l = l := by
  intro l
  induction l with
  | nil => intro _ _; rfl
  | cons d rest ih =>
    intro hdash hadj
    have hrest_dash : ∀ c ∈ rest, collapseClassChar c = true → c = '-' :=
      fun c hc => hdash c (List.mem_cons_of_mem _ hc)
    have hrest_adj : noAdjColl rest = true := noAdjColl_of_cons hadj
    by_cases hd : collapseClassChar d
    · have hd' : d = '-' := hdash d (List.mem_cons_self _ _) hd
      have hh : rest = [] ∨
          ∃ c r, rest = c :: r ∧ collapseClassChar c = false := by
        cases rest with
        | nil => exact Or.inl rfl
        | cons c r =>
          refine Or.inr ⟨c, r, rfl, ?_⟩
          have hab := (Bool.and_eq_true_iff.mp hadj).1
          simpa [hd] using hab
      calc collapseRuns false (d :: rest)
          = '-' :: collapseRuns true rest := by simp [collapseRuns, hd]
        _ = '-' :: collapseRuns false rest := by
            rw [collapseRuns_true_eq_false rest hh]
        _ = '-' :: rest := by rw [ih hrest_dash hrest_adj]
        _ = d :: rest := by rw [hd']
    · simp only [collapseRuns, if_neg hd]
      rw [ih hrest_dash hrest_adj]

theorem mem_of_dropWhile (p : Char → Bool) :
    ∀ (l : List Char) (c : Char), c ∈ l.dropWhile p → c ∈ l := by
  intro l
  induction l with
  | nil => intro c h; simp [List.dropWhile] at h
  | cons a rest ih =>
    intro c h
    rw [List.dropWhile_cons] at h
    by_cases hp : p a
    · rw [if_pos hp] at h
      exact List.mem_cons_of_mem _ (ih c h)
    · rw [if_neg hp] at h
      exact h

theorem mem_pyStrip (l : List Char) (c : Char) (h : c ∈ pyStrip l) : c ∈ l := by
  unfold pyStrip at h
  rw [List.mem_reverse] at h
  have h2 := mem_of_dropWhile _ _ _ h
  rw [List.mem_reverse] at h2
  exact mem_of_dropWhile _ _ _ h2

theorem dropWhile_eq_self_of_none (p : Char → Bool) (l : List Char)
    (h : ∀ c ∈ l, p c = false) : l.dropWhile p = l := by
  cases l with
  | nil => rfl
  | cons a rest =>
    rw [List.dropWhile_cons,
      if_neg (by simp [h a (List.mem_cons_self _ _)])]

theorem pyStrip_eq_self (l : List Char)
    (h : ∀ c ∈ l, pySpaceChar c = false) : pyStrip l = l := by
  unfold pyStrip
  rw [dropWhile_eq_self_of_none _ _ h,
    dropWhile_eq_self_of_none _ _ (fun c hc => h c (List.mem_reverse.mp hc)),
    List.reverse_reverse]

theorem map_eq_self_of_fixed (f : Char → Char) (l : List Char)
    (h : ∀ c ∈ l, f c = c) : l.map f = l := by
  induction l with
  | nil => rfl
  | cons a rest ih =>
    rw [List.map_cons, h a (List.mem_cons_self _ _),
      ih (fun c hc => h c (List.mem_cons_of_mem _ hc))]

/-- Every character of the slug output is ASCII and is either a hyphen or
a word character fixed by lowercasing. -/
theorem slugifyChars_mem (l : List Char) (n : Nat) (c : Char)
    (h : c ∈ slugifyChars l n) :
    c.toNat ≤ 127 ∧ (c = '-' ∨ (pyWordChar c = true ∧ pyToLower c = c)) := by
  unfold slugifyChars at h
  have h1 := (List.take_sublist _ _).mem h
  have h2 := List.mem_filter.mp h1
  have hascii : c.toNat ≤ 127 := by simpa using h2.2
  refine ⟨hascii, ?_⟩
  rcases mem_collapseRuns _ _ _ h2.1 with rfl | ⟨hmem, hncoll⟩
  · exact Or.inl rfl
  · obtain ⟨x, hx, rfl⟩ := List.mem_map.mp hmem
    have hxkeep : slugKeepChar x = true :=
      (List.mem_filter.mp (mem_pyStrip _ _ hx)).2
    exact Or.inr ⟨word_of_keep_not_coll _ (slugKeepChar_pyToLower x hxkeep)
      hncoll, pyToLower_idem x⟩

theorem slugifyChars_length_le (l : List Char) (n : Nat) :
    (slugifyChars l n).length ≤ n := by
  unfold slugifyChars
  rw [List.length_take]
  exact min_le_left _ _

/-- On all-ASCII input the ASCII-forcing filter removes nothing, so the
slug is a truncation of the collapse output and keeps its no-adjacent-runs
shape. -/
theorem slugifyChars_ascii_shape (l : List Char)
    (hascii : ∀ c ∈ l, c.toNat ≤ 127) :
    slugifyChars l 50
      = (collapseRuns false
          ((pyStrip (l.filter slugKeepChar)).map pyToLower)).take 50 ∧
    noAdjColl (slugifyChars l 50) = true := by
  have hvascii : ∀ c ∈ (pyStrip (l.filter slugKeepChar)).map pyToLower,
      c.toNat ≤ 127 := by
    intro c hc
    obtain ⟨x, hx, rfl⟩ := List.mem_map.mp hc
    exact pyToLower_ascii x
      (hascii x (List.mem_filter.mp (mem_pyStrip _ _ hx)).1)
  have huascii : ∀ c ∈ collapseRuns false
      ((pyStrip (l.filter slugKeepChar)).map pyToLower), c.toNat ≤ 127 := by
    intro c hc
    rcases mem_collapseRuns _ _ _ hc with rfl | ⟨hm, _⟩
    · decide
    · exact hvascii c hm
  have hfe : (collapseRuns false
      ((pyStrip (l.filter slugKeepChar)).map pyToLower)).filter
        (fun c => c.toNat ≤ 127)
      = collapseRuns false ((pyStrip (l.filter slugKeepChar)).map pyToLower) :=
    List.filter_eq_self.mpr (fun c hc => by simpa using huascii c hc)
  have heq : slugifyChars l 50
      = (collapseRuns false
          ((pyStrip (l.filter slugKeepChar)).map pyToLower)).take 50 := by
    unfold slugifyChars
    rw [hfe]
  refine ⟨heq, ?_⟩
  rw [heq]
  exact noAdjColl_take _ _ (noAdjColl_collapseRuns false _)

/-- On all-ASCII input, slugify is idempotent. -/
theorem slugifyChars_idem (l : List Char)
    (hascii : ∀ c ∈ l, c.toNat ≤ 127) :
    slugifyChars (slugifyChars l 50) 50 = slugifyChars l 50 := by
  have hout := fun c hc => slugifyChars_mem l 50 c hc
  have e1 : (slugifyChars l 50).filter slugKeepChar = slugifyChars l 50 :=
    List.filter_eq_self.mpr (fun c hc => keep_of_out_char c (hout c hc).2)
  have e2 : pyStrip (slugifyChars l 50) = slugifyChars l 50 :=
    pyStrip_eq_self _ (fun c hc => not_space_of_out_char c (hout c hc).2)
  have e3 : (slugifyChars l 50).map pyToLower = slugifyChars l 50 :=
    map_eq_self_of_fixed _ _ (fun c hc => lower_fixed_of_out_char c (hout c hc).2)
  have e4 : collapseRuns false (slugifyChars l 50) = slugifyChars l 50 :=
    collapseRuns_eq_self _
      (fun c hc hcoll => dash_of_coll_out_char c (hout c hc).2 hcoll)
      (slugifyChars_ascii_shape l hascii).2
  have e5 : (slugifyChars l 50).filter (fun c => c.toNat ≤ 127)
      = slugifyChars l 50 :=
    List.filter_eq_self.mpr (fun c hc => by simpa using (hout c hc).1)
  have e6 : (slugifyChars l 50).take 50 = slugifyChars l 50 :=
    List.take_of_length_le (slugifyChars_length_le l 50)
  calc slugifyChars (slugifyChars l 50) 50
      = ((collapseRuns false
          ((pyStrip ((slugifyChars l 50).filter slugKeepChar)).map
            pyToLower)).filter (fun c => c.toNat ≤ 127)).take 50 := rfl
    _ = slugifyChars l 50 := by rw [e1, e2, e3, e4, e5, e6]

/-- C8 (amended): slugify strips characters outside
letters/digits/underscore/dot/hyphen/whitespace, trims, lowercases,
collapses every run of hyphens, dots and whitespace into one hyphen,
forces the result to ASCII and truncates to at most 50 characters; every
output character is an ASCII hyphen or a lowercase-stable word character;
and the function is idempotent on every all-ASCII input.  (It is NOT
idempotent in general: a non-ASCII word character dropped by the
ASCII-forcing step can leave two adjacent hyphens that only a second
application collapses — see the counterexample.) -/
theorem slugify_spec (s : String) :
    (slugify s 50).length ≤ 50 ∧
    (∀ c ∈ (slugify s 50).data,
      c.toNat ≤ 127 ∧ (c = '-' ∨ (pyWordChar c = true ∧ pyToLower c = c))) ∧
    ((∀ c ∈ s.data, c.toNat ≤ 127) →
      slugify (slugify s 50) 50 = slugify s 50) := by
  refine ⟨slugifyChars_length_le s.data 50,
    fun c hc => slugifyChars_mem s.data 50 c hc, fun h => ?_⟩
  show (⟨slugifyChars (slugifyChars s.data 50) 50⟩ : String) = _
  rw [slugifyChars_idem s.data h]
  rfl

/-- Witness for C8: a name with spaces, dots and mixed case slugs to a
lowercase hyphen-joined token, and a second application fixes it. -/
theorem slugify_spec_witness :
    slugify (slugify "My  Tunnel..Group NAME" 50) 50
      = slugify "My  Tunnel..Group NAME" 50 :=
  (slugify_spec "My  Tunnel..Group NAME").2.2 (by decide)

/-- C8 counterexample: slugify is not idempotent on every string.  In
`"a-é-b"` the é is a word character (kept by the first substitution, so
the two hyphens are separate runs) that the later ASCII-forcing step
drops, leaving `"a--b"`; a second application collapses the now-adjacent
hyphens to `"a-b"`. -/
theorem slugify_not_idempotent :
    slugify "a-é-b" 50 = "a--b" ∧
    slugify (slugify "a-é-b" 50) 50 = "a-b" ∧
    slugify (slugify "a-é-b" 50) 50 ≠ slugify "a-é-b" 50 := by
  refine ⟨by decide, by decide, by decide⟩

/-! ## connector.py and dispatcher.py

The transport drivers (netmiko `ConnectHandler`/`send_command`, junos-eznc
`Device`/tables/rpc) are external collaborators; the embedding abstracts
each as an environment of oracles and models wall-clock time as a `Nat`
tick counter advanced by one for every device-touching operation.
Session handles are numbered: a (re)connect consumes the next fresh
number, so equal numbers mean the same session and a fresh number means a
reconnect. -/

/-- `ConnectParams` of `connector.py` (secret values as plain strings). -/
structure ConnectParams where
  host : String
  device_type : String
  persist : Bool
  username : String
  password : String
  secret : Option String := none
  timeout : Nat := 60
  keepalive : Nat := 10
  ssh_port : Nat := 22
  netconf_port : Nat := 830
deriving DecidableEq, Repr

/-- The `DispatcherError` subclasses of `dispatcher.py`. -/
inductive DispatchErr where
  | netmikoError (msg : String)
  | pyezError (msg : String)
deriving DecidableEq, Repr

/-- Environment of a Netmiko dispatch: whether `ConnectHandler` succeeds,
and the device's reply to `send_command` per command text and params
(`.error` models the driver raising). -/
structure NetmikoEnv (ρ : Type) where
  connectResult : Except String Unit
  send : String → List (String × PyVal) → Except String ρ

/-- The class-level mutable state of `NetmikoDispatcher`: the `outter_dev`
session slot, plus the fresh handle number the next `ConnectHandler` call
would produce. -/
structure NetmikoState where
  outter_dev : Option Nat
  next_handle : Nat
deriving DecidableEq, Repr

/-- The command loop of `NetmikoDispatcher.execute`: start timing, send,
store the result, stop timing; a driver exception aborts the loop with
the failing command holding only its start time and the commands after it
untouched. -/
def netmikoRunLoop (env : NetmikoEnv ρ) :
    Nat → List (Command ρ) → (List (Command ρ) × Option String × Nat)
  | clock, [] => ([], none, clock)
  | clock, c :: rest =>
    let c1 := c.start_timing clock
    match env.send c.command c.params with
    | .error e =>
      (c1 :: rest, some ("Driver failed execution: " ++ e), clock + 1)
    | .ok r =>
      let c2 := ({ c1 with result := some r } : Command ρ).stop_timing (clock + 1)
      let (rest2, err, clock2) := netmikoRunLoop env (clock + 1) rest
      (c2 :: rest2, err, clock2)

/-- The outcome of one Netmiko dispatch call: the mutated commands, the
returned `(error, msg)` pair, the class state after `__exit__`, the clock,
and the session handle the with-block yielded (none if entry failed). -/
structure NetmikoRun (ρ : Type) where
  commands : List (Command ρ)
  error : Option DispatchErr
  msg : String
  state : NetmikoState
  clock : Nat
  usedDev : Option Nat
deriving Repr

/-- The tail of `NetmikoDispatcher.execute` after a session was obtained:
run the loop, apply `__exit__` (clear the slot unless `persist`), convert
a loop failure into the returned `NetmikoError`. -/
def netmikoFinish (persist : Bool) (st1 : NetmikoState) (dev : Nat)
    (r : List (Command ρ) × Option String × Nat) : NetmikoRun ρ :=
  let st2 := if persist then st1 else { st1 with outter_dev := none }
  match r.2.1 with
  | none => ⟨r.1, none, "", st2, r.2.2, some dev⟩
  | some m => ⟨r.1, some (.netmikoError m), m, st2, r.2.2, some dev⟩

/-- `NetmikoDispatcher.execute`: `__enter__` reuses the class-level slot
when it is occupied and otherwise calls `ConnectHandler` (a fresh
handle); a connect failure is caught by the `except` clause before any
command runs and leaves the slot empty (`__exit__` of a failed
`__enter__` never runs). -/
def netmikoExecute (env : NetmikoEnv ρ) (connector : ConnectParams)
    (st : NetmikoState) (clock : Nat) (commands : List (Command ρ)) :
    NetmikoRun ρ :=
  match st.outter_dev with
  | some dev =>
    netmikoFinish connector.persist st dev (netmikoRunLoop env clock commands)
  | none =>
    match env.connectResult with
    | .error e =>
      let m := "Driver failed execution: " ++ e
      ⟨commands, some (.netmikoError m), m, st, clock, none⟩
    | .ok _ =>
      netmikoFinish connector.persist
        ⟨some st.next_handle, st.next_handle + 1⟩ st.next_handle
        (netmikoRunLoop env clock commands)

/-- Outcome of a two-tier table registry lookup for `(protocol, table)`:
the module is absent, the module imports but lacks the table class, or
the table class is found (a handle). -/
inductive TableLookup where
  | noModule (nativeErr : String)
  | noTable (nativeErr : String)
  | found (table : Nat)
deriving DecidableEq, Repr

/-- Environment of a PyEZ dispatch: `Device(...)` entry outcome, the
custom and built-in table registries, the rows `.get()` fetches per table
handle, and `dev.rpc.get` per command text. -/
structure PyezEnv (ρ : Type) where
  connectResult : Except String Unit
  customLookup : String → String → TableLookup
  pyezLookup : String → String → TableLookup
  tableGet : Nat → ρ
  rpcGet : String → Except String ρ

/-- `collector.split("_")[0] if "_" in collector else collector`. -/
def pyezProtocol (collector : String) : String :=
  if collector.data.contains '_' then
    ⟨collector.data.takeWhile (fun c => c ≠ '_')⟩
  else collector

/-- How processing one command inside the PyEZ loop ends: normally, with
the `return error, msg` of an exhausted table lookup, or with an
exception that the outer `except` will convert. -/
inductive PyezStep (ρ : Type) where
  | done (c : Command ρ) (clock : Nat)
  | earlyReturn (c : Command ρ) (clock : Nat) (msg : String)
  | raised (c : Command ρ) (clock : Nat) (msg : String)
deriving Repr

/-- The fallback `try` of the table mode: import the built-in PyEZ module,
call `start_timing`, instantiate the table (one tick), `stop_timing`;
then fetch the rows (one tick) back in the caller.  `ModuleNotFoundError`
strikes before `start_timing`, `AttributeError` after it. -/
def pyezFallback (env : PyezEnv ρ) (clock : Nat) (c : Command ρ)
    (protocol tname : String) : PyezStep ρ :=
  match env.pyezLookup protocol tname with
  | .found t =>
    let c1 := (c.start_timing clock).stop_timing (clock + 1)
    .done { c1 with result := some (env.tableGet t) } (clock + 2)
  | .noModule e =>
    .earlyReturn c clock
      ("Driver execution failed: Module " ++ protocol ++
        " not found in custom nor PyEZ tables.\nNative error: " ++ e)
  | .noTable e =>
    .earlyReturn (c.start_timing clock) clock
      ("Driver execution failed: Table " ++ tname ++ " for module " ++
        protocol ++ " not found in custom nor PyEZ tables.\nNative error: " ++ e)

/-- One command of the `PyEZDispatcher.execute` loop.  Table mode is
selected by a truthy `table` parse hint: custom registry first (the module
load is not timed; `start_timing` precedes the table instantiation and
`stop_timing` follows it, BEFORE `table.get()` fetches the rows on a
further tick); otherwise `dev.rpc.get(command.command)`. -/
def pyezStepCommand (env : PyezEnv ρ) (clock : Nat) (c : Command ρ) :
    PyezStep ρ :=
  match pyDictGet c.params "table" with
  | some tv =>
    if pyTruthy tv then
      let protocol := pyezProtocol c.collector
      let tname := pyStr tv
      match env.customLookup protocol tname with
      | .found t =>
        let c1 := (c.start_timing clock).stop_timing (clock + 1)
        .done { c1 with result := some (env.tableGet t) } (clock + 2)
      | .noModule _ => pyezFallback env clock c protocol tname
      | .noTable _ =>
        pyezFallback env clock (c.start_timing clock) protocol tname
    else
      match env.rpcGet c.command with
      | .ok r => .done { c with result := some r } (clock + 1)
      | .error e => .raised c (clock + 1) e
  | none =>
    match env.rpcGet c.command with
    | .ok r => .done { c with result := some r } (clock + 1)
    | .error e => .raised c (clock + 1) e

/-- How the PyEZ command loop ends. -/
inductive PyezLoopExit where
  | finished
  | early (msg : String)
  | exn (msg : String)
deriving DecidableEq, Repr

/-- The command loop of `PyEZDispatcher.execute`: both the early `return`
and an exception stop the loop, leaving later commands untouched. -/
def pyezRunLoop (env : PyezEnv ρ) :
    Nat → List (Command ρ) → (List (Command ρ) × Nat × PyezLoopExit)
  | clock, [] => ([], clock, .finished)
  | clock, c :: rest =>
    match pyezStepCommand env clock c with
    | .done c2 clock2 =>
      let (rest2, clock3, ex) := pyezRunLoop env clock2 rest
      (c2 :: rest2, clock3, ex)
    | .earlyReturn c2 clock2 m => (c2 :: rest, clock2, .early m)
    | .raised c2 clock2 m => (c2 :: rest, clock2, .exn m)

/-- Per-call session state of `PyEZDispatcher`: only the fresh-handle
supply — the class keeps no session slot. -/
structure PyezState where
  next_handle : Nat
deriving DecidableEq, Repr

/-- Outcome of one PyEZ dispatch call.  `opened` is the handle `Device`
opened for this call (none if entry failed); `sessionOpenAtEnd` records
whether a session survives the call — never, since `with Device(...)`
closes it on every path out of the block. -/
structure PyezRun (ρ : Type) where
  commands : List (Command ρ)
  error : Option DispatchErr
  msg : String
  opened : Option Nat
  sessionOpenAtEnd : Bool
  state : PyezState
  clock : Nat
deriving Repr

/-- `PyEZDispatcher.execute`: open a fresh `Device` session (the class
has no reuse slot and never consults `connector.persist`), run the loop,
close the session, and return the `(error, msg)` pair: the early-return
messages verbatim, any exception wrapped as
`Driver failed execution (unknown exception): ...`. -/
def pyezExecute (env : PyezEnv ρ) (connector : ConnectParams)
    (st : PyezState) (clock : Nat) (commands : List (Command ρ)) :
    PyezRun ρ :=
  match env.connectResult with
  | .error e =>
    let m := "Driver failed execution (unknown exception): " ++ e
    ⟨commands, some (.pyezError m), m, none, false, st, clock⟩
  | .ok _ =>
    let dev := st.next_handle
    let st1 : PyezState := ⟨st.next_handle + 1⟩
    match pyezRunLoop env clock commands with
    | (cmds2, clock2, .finished) => ⟨cmds2, none, "", some dev, false, st1, clock2⟩
    | (cmds2, clock2, .early m) =>
      ⟨cmds2, some (.pyezError m), m, some dev, false, st1, clock2⟩
    | (cmds2, clock2, .exn m) =>
      let m2 := "Driver failed execution (unknown exception): " ++ m
      ⟨cmds2, some (.pyezError m2), m2, some dev, false, st1, clock2⟩

theorem netmikoFinish_state (p : Bool) (st1 : NetmikoState) (dev : Nat)
    (r : List (Command ρ) × Option String × Nat) :
    (netmikoFinish p st1 dev r).state
      = if p then st1 else { st1 with outter_dev := none } := by
  rcases hr : r.2.1 with _ | m <;> simp [netmikoFinish, hr]

theorem netmikoFinish_usedDev (p : Bool) (st1 : NetmikoState) (dev : Nat)
    (r : List (Command ρ) × Option String × Nat) :
    (netmikoFinish p st1 dev r).usedDev = some dev := by
  rcases hr : r.2.1 with _ | m <;> simp [netmikoFinish, hr]

theorem pyezExecute_closed (env : PyezEnv ρ) (conn : ConnectParams)
    (st : PyezState) (clock : Nat) (cmds : List (Command ρ)) :
    (pyezExecute env conn st clock cmds).sessionOpenAtEnd = false := by
  unfold pyezExecute
  rcases env.connectResult with e | u
  · rfl
  · rcases hr : pyezRunLoop env clock cmds with ⟨cmds2, clock2, ex⟩
    cases ex <;> simp

/-- With `persist` true a Netmiko call keeps the session slot and touches
no fresh handle, and hands out the slot's handle. -/
theorem netmikoExecute_persist (env : NetmikoEnv ρ) (conn : ConnectParams)
    (st : NetmikoState) (clock : Nat) (cmds : List (Command ρ)) (h : Nat)
    (hp : conn.persist = true) (hs : st.outter_dev = some h) :
    (netmikoExecute env conn st clock cmds).usedDev = some h ∧
    (netmikoExecute env conn st clock cmds).state = st := by
  unfold netmikoExecute
  rw [hs]
  exact ⟨netmikoFinish_usedDev _ _ _ _,
    by rw [netmikoFinish_state, if_pos hp]⟩

/-- C3 (amended): with `persist=false` the SSH-style driver clears its
session slot at the end of every dispatch call, on success and failure
alike, and the NETCONF-style driver leaves no session open after any
call (it opens and closes a fresh `Device` per call, never consulting
`persist`); with `persist=true` the SSH-style driver hands the same
session handle to two consecutive dispatch calls and allocates no fresh
handle for the second — but this reuse exists only for the SSH-style
driver (see the counterexample for the NETCONF-style one). -/
theorem dispatcher_session_policy (ρ : Type) (envN envN2 : NetmikoEnv ρ)
    (envP : PyezEnv ρ) (conn : ConnectParams) (stN : NetmikoState)
    (stP : PyezState) (clock clock2 : Nat) (cmds cmds2 : List (Command ρ)) :
    (conn.persist = false →
      (netmikoExecute envN conn stN clock cmds).state.outter_dev = none) ∧
    (pyezExecute envP conn stP clock cmds).sessionOpenAtEnd = false ∧
    (conn.persist = true →
      (stN.outter_dev.isSome ∨ envN.connectResult = .ok ()) →
      ∃ h, (netmikoExecute envN conn stN clock cmds).usedDev = some h ∧
        (netmikoExecute envN2 conn
            (netmikoExecute envN conn stN clock cmds).state
            clock2 cmds2).usedDev = some h ∧
        (netmikoExecute envN2 conn
            (netmikoExecute envN conn stN clock cmds).state
            clock2 cmds2).state.next_handle
          = (netmikoExecute envN conn stN clock cmds).state.next_handle) := by
  refine ⟨?_, pyezExecute_closed envP conn stP clock cmds, ?_⟩
  · intro hp
    unfold netmikoExecute
    rcases hs : stN.outter_dev with _ | dev
    · rcases hc : envN.connectResult with e | u
      · simpa using hs
      · rw [netmikoFinish_state, if_neg (by simp [hp])]
    · rw [netmikoFinish_state, if_neg (by simp [hp])]
  · intro hp hconn
    rcases hs : stN.outter_dev with _ | h
    · rcases hconn with hsome | hok
      · rw [hs] at hsome; cases hsome
      · have h1u : (netmikoExecute envN conn stN clock cmds).usedDev
            = some stN.next_handle := by
          unfold netmikoExecute
          rw [hs, hok]
          exact netmikoFinish_usedDev _ _ _ _
        have h1s : (netmikoExecute envN conn stN clock cmds).state
            = ⟨some stN.next_handle, stN.next_handle + 1⟩ := by
          unfold netmikoExecute
          rw [hs, hok, netmikoFinish_state, if_pos hp]
        have h2 := netmikoExecute_persist envN2 conn
          (netmikoExecute envN conn stN clock cmds).state clock2 cmds2
          stN.next_handle hp (by rw [h1s])
        exact ⟨stN.next_handle, h1u, h2.1, by rw [h2.2]⟩
    · have h1 := netmikoExecute_persist envN conn stN clock cmds h hp hs
      have h2 := netmikoExecute_persist envN2 conn
        (netmikoExecute envN conn stN clock cmds).state clock2 cmds2 h hp
        (by rw [h1.2, hs])
      exact ⟨h, h1.1, h2.1, by rw [h2.2]⟩

/-- Witness for C3: a concrete two-call persist=true Netmiko run reuses
handle 0, and the teardown and PyEZ parts at the same inputs. -/
theorem dispatcher_session_policy_witness :
    ∃ h, (netmikoExecute (ρ := Unit) ⟨.ok (), fun _ _ => .ok ()⟩
        ⟨"h", "cisco_xe", true, "u", "p", none, 60, 10, 22, 830⟩
        ⟨none, 0⟩ 0 []).usedDev = some h ∧
      (netmikoExecute (ρ := Unit) ⟨.ok (), fun _ _ => .ok ()⟩
        ⟨"h", "cisco_xe", true, "u", "p", none, 60, 10, 22, 830⟩
        ((netmikoExecute (ρ := Unit) ⟨.ok (), fun _ _ => .ok ()⟩
          ⟨"h", "cisco_xe", true, "u", "p", none, 60, 10, 22, 830⟩
          ⟨none, 0⟩ 0 []).state) 0 []).usedDev = some h ∧
      (netmikoExecute (ρ := Unit) ⟨.ok (), fun _ _ => .ok ()⟩
        ⟨"h", "cisco_xe", true, "u", "p", none, 60, 10, 22, 830⟩
        ((netmikoExecute (ρ := Unit) ⟨.ok (), fun _ _ => .ok ()⟩
          ⟨"h", "cisco_xe", true, "u", "p", none, 60, 10, 22, 830⟩
          ⟨none, 0⟩ 0 []).state) 0 []).state.next_handle
        = (netmikoExecute (ρ := Unit) ⟨.ok (), fun _ _ => .ok ()⟩
          ⟨"h", "cisco_xe", true, "u", "p", none, 60, 10, 22, 830⟩
          ⟨none, 0⟩ 0 []).state.next_handle :=
  (dispatcher_session_policy Unit ⟨.ok (), fun _ _ => .ok ()⟩
    ⟨.ok (), fun _ _ => .ok ()⟩
    ⟨.ok (), fun _ _ => .noModule "", fun _ _ => .noModule "",
      fun _ => (), fun _ => .ok ()⟩
    ⟨"h", "cisco_xe", true, "u", "p", none, 60, 10, 22, 830⟩
    ⟨none, 0⟩ ⟨0⟩ 0 0 [] []).2.2 rfl (Or.inr rfl)

/-- C3 counterexample: the NETCONF-style driver ignores `persist`.  With
`persist=true` two consecutive PyEZ dispatch calls open two DIFFERENT
sessions (handles 0 then 1): the second call reconnects instead of
reusing the first session. -/
theorem pyez_ignores_persist_counterexample :
    (pyezExecute (ρ := Unit)
        ⟨.ok (), fun _ _ => .noModule "", fun _ _ => .noModule "",
          fun _ => (), fun _ => .ok ()⟩
        ⟨"h", "juniper_junos", true, "u", "p", none, 60, 10, 22, 830⟩
        ⟨0⟩ 0 []).opened = some 0 ∧
    (pyezExecute (ρ := Unit)
        ⟨.ok (), fun _ _ => .noModule "", fun _ _ => .noModule "",
          fun _ => (), fun _ => .ok ()⟩
        ⟨"h", "juniper_junos", true, "u", "p", none, 60, 10, 22, 830⟩
        ((pyezExecute (ρ := Unit)
          ⟨.ok (), fun _ _ => .noModule "", fun _ _ => .noModule "",
            fun _ => (), fun _ => .ok ()⟩
          ⟨"h", "juniper_junos", true, "u", "p", none, 60, 10, 22, 830⟩
          ⟨0⟩ 0 []).state) 0 []).opened = some 1 ∧
    (some 1 : Option Nat) ≠ some 0 := by
  refine ⟨rfl, rfl, by decide⟩

/-- A command the SSH-style loop has fully executed: result stored and
both timing fields populated. -/
def populatedN (c : Command ρ) : Prop :=
  c.result.isSome ∧ c.start_time.isSome ∧ c.timestamp.isSome ∧
    c.execution_time.isSome

/-- The SSH-style loop: output length, full population on success, success
when every send succeeds, and on failure a split point `i` with the
prefix executed and the suffix after `i` untouched. -/
theorem netmikoRunLoop_spec (env : NetmikoEnv ρ) :
    ∀ (cmds : List (Command ρ)) (clock : Nat)
      (out : List (Command ρ)) (err : Option String) (clk2 : Nat),
      netmikoRunLoop env clock cmds = (out, err, clk2) →
      out.length = cmds.length ∧
      (err = none → ∀ c ∈ out, populatedN c) ∧
      ((∀ c ∈ cmds, (env.send c.command c.params).isOk) → err = none) ∧
      (err ≠ none → ∃ i < cmds.length,
        (∀ c ∈ out.take i, populatedN c) ∧
        out.drop (i + 1) = cmds.drop (i + 1)) := by
  intro cmds
  induction cmds with
  | nil =>
    intro clock out err clk2 h
    simp only [netmikoRunLoop, Prod.mk.injEq] at h
    obtain ⟨rfl, rfl, rfl⟩ := h
    exact ⟨rfl, fun _ c hc => absurd hc (List.not_mem_nil c),
      fun _ => rfl, fun hne => absurd rfl hne⟩
  | cons c rest ih =>
    intro clock out err clk2 h
    simp only [netmikoRunLoop] at h
    cases hs : env.send c.command c.params with
    | error e =>
      rw [hs] at h
      simp only [Prod.mk.injEq] at h
      obtain ⟨rfl, rfl, rfl⟩ := h
      refine ⟨by simp, ?_, ?_, ?_⟩
      · intro hnone; cases hnone
      · intro hall
        have := hall c (List.mem_cons_self _ _)
        rw [hs] at this
        cases this
      · intro _
        exact ⟨0, by simp, by simp, by simp⟩
    | ok r =>
      rw [hs] at h
      rcases hrec : netmikoRunLoop env (clock + 1) rest with ⟨rest2, err2, clk3⟩
      rw [hrec] at h
      simp only [Prod.mk.injEq] at h
      obtain ⟨rfl, rfl, rfl⟩ := h
      obtain ⟨ihl, ihpop, ihok, ihsplit⟩ :=
        ih (clock + 1) rest2 err2 clk3 hrec
      have hcpop : populatedN
          (({ c.start_timing clock with result := some r } :
            Command ρ).stop_timing (clock + 1)) := by
        simp [Command.start_timing, Command.stop_timing, populatedN]
      refine ⟨by simp [ihl], ?_, ?_, ?_⟩
      · intro hnone c2 hc2
        rcases List.mem_cons.mp hc2 with rfl | hm
        · exact hcpop
        · exact ihpop hnone c2 hm
      · intro hall
        exact ihok (fun c2 hc2 => hall c2 (List.mem_cons_of_mem _ hc2))
      · intro hne
        obtain ⟨i, hi, hpre, hsuf⟩ := ihsplit hne
        refine ⟨i + 1, by simpa using Nat.succ_lt_succ hi, ?_, ?_⟩
        · intro c2 hc2
          rw [List.take_succ_cons] at hc2
          rcases List.mem_cons.mp hc2 with rfl | hm
          · exact hcpop
          · exact hpre c2 hm
        · simpa [List.drop_succ_cons] using hsuf

/-- A string with a non-empty left summand is non-empty. -/
theorem append_ne_empty_left (s t : String) (h : s ≠ "") : s ++ t ≠ "" := by
  intro he
  apply h
  have hl := congrArg String.length he
  rw [String.length_append, show ("" : String).length = 0 from rfl] at hl
  have hs : s.length = 0 := by omega
  cases s with
  | mk data =>
    cases data with
    | nil => rfl
    | cons c cs => simp [String.length] at hs

/-- A command succeeds inside the PyEZ loop: in table mode one of the two
registry tiers resolves the table; otherwise the structured query
answers. -/
def pyezCmdOk (env : PyezEnv ρ) (c : Command ρ) : Prop :=
  match pyDictGet c.params "table" with
  | some tv =>
    if pyTruthy tv then
      (∃ t, env.customLookup (pyezProtocol c.collector) (pyStr tv) = .found t) ∨
      (∃ t, env.pyezLookup (pyezProtocol c.collector) (pyStr tv) = .found t)
    else (env.rpcGet c.command).isOk
  | none => (env.rpcGet c.command).isOk

theorem pyezStep_done_result (env : PyezEnv ρ) (clock : Nat) (c c2 : Command ρ)
    (clock2 : Nat) (h : pyezStepCommand env clock c = .done c2 clock2) :
    c2.result.isSome := by
  unfold pyezStepCommand at h
  rcases htv : pyDictGet c.params "table" with _ | tv
  all_goals simp only [htv] at h
  · rcases hr : env.rpcGet c.command with e | r <;> rw [hr] at h
    · cases h
    · cases h; rfl
  · by_cases ht : pyTruthy tv
    · rw [if_pos ht] at h
      rcases hc : env.customLookup (pyezProtocol c.collector) (pyStr tv) with
        e | e | t
      all_goals simp only [hc] at h
      · unfold pyezFallback at h
        rcases hp : env.pyezLookup (pyezProtocol c.collector) (pyStr tv) with
          e2 | e2 | t2 <;> rw [hp] at h <;> cases h
        rfl
      · unfold pyezFallback at h
        rcases hp : env.pyezLookup (pyezProtocol c.collector) (pyStr tv) with
          e2 | e2 | t2 <;> rw [hp] at h <;> cases h
        rfl
      · cases h; rfl
    · rw [if_neg ht] at h
      rcases hr : env.rpcGet c.command with e | r <;> rw [hr] at h
      · cases h
      · cases h; rfl

theorem pyezStep_done_of_ok (env : PyezEnv ρ) (clock : Nat) (c : Command ρ)
    (hok : pyezCmdOk env c) :
    ∃ c2 clock2, pyezStepCommand env clock c = .done c2 clock2 := by
  unfold pyezCmdOk at hok
  unfold pyezStepCommand
  rcases htv : pyDictGet c.params "table" with _ | tv
  all_goals simp only [htv] at hok ⊢
  · rcases hr : env.rpcGet c.command with e | r
    · rw [hr] at hok; cases hok
    · exact ⟨_, _, rfl⟩
  · by_cases ht : pyTruthy tv
    · rw [if_pos ht] at hok ⊢
      rcases hc : env.customLookup (pyezProtocol c.collector) (pyStr tv) with
        e | e | t
      · rcases hok with ⟨t', ht'⟩ | ⟨t', ht'⟩
        · rw [hc] at ht'; cases ht'
        · unfold pyezFallback
          rw [ht']
          exact ⟨_, _, rfl⟩
      · rcases hok with ⟨t', ht'⟩ | ⟨t', ht'⟩
        · rw [hc] at ht'; cases ht'
        · unfold pyezFallback
          rw [ht']
          exact ⟨_, _, rfl⟩
      · exact ⟨_, _, rfl⟩
    · rw [if_neg ht] at hok ⊢
      rcases hr : env.rpcGet c.command with e | r
      · rw [hr] at hok; cases hok
      · exact ⟨_, _, rfl⟩

theorem pyezStep_early_msg (env : PyezEnv ρ) (clock : Nat) (c c2 : Command ρ)
    (clock2 : Nat) (m : String)
    (h : pyezStepCommand env clock c = .earlyReturn c2 clock2 m) : m ≠ "" := by
  unfold pyezStepCommand at h
  rcases htv : pyDictGet c.params "table" with _ | tv
  all_goals simp only [htv] at h
  · rcases hr : env.rpcGet c.command with e | r <;> rw [hr] at h <;> cases h
  · by_cases ht : pyTruthy tv
    · rw [if_pos ht] at h
      rcases hc : env.customLookup (pyezProtocol c.collector) (pyStr tv) with
        e | e | t
      all_goals simp only [hc] at h
      · unfold pyezFallback at h
        rcases hp : env.pyezLookup (pyezProtocol c.collector) (pyStr tv) with
          e2 | e2 | t2 <;> rw [hp] at h <;> cases h
        · exact append_ne_empty_left _ _ (append_ne_empty_left _ _
            (append_ne_empty_left _ _ (by decide)))
        · exact append_ne_empty_left _ _ (append_ne_empty_left _ _
            (append_ne_empty_left _ _ (append_ne_empty_left _ _
              (append_ne_empty_left _ _ (by decide)))))
      · unfold pyezFallback at h
        rcases hp : env.pyezLookup (pyezProtocol c.collector) (pyStr tv) with
          e2 | e2 | t2 <;> rw [hp] at h <;> cases h
        · exact append_ne_empty_left _ _ (append_ne_empty_left _ _
            (append_ne_empty_left _ _ (by decide)))
        · exact append_ne_empty_left _ _ (append_ne_empty_left _ _
            (append_ne_empty_left _ _ (append_ne_empty_left _ _
              (append_ne_empty_left _ _ (by decide)))))
      · cases h
    · rw [if_neg ht] at h
      rcases hr : env.rpcGet c.command with e | r <;> rw [hr] at h <;> cases h

/-- The NETCONF-style loop: output length, results stored on success,
success when every command succeeds, a split point on failure, and a
non-empty early-return message. -/
theorem pyezRunLoop_spec (env : PyezEnv ρ) :
    ∀ (cmds : List (Command ρ)) (clock : Nat)
      (out : List (Command ρ)) (clk2 : Nat) (ex : PyezLoopExit),
      pyezRunLoop env clock cmds = (out, clk2, ex) →
      out.length = cmds.length ∧
      (ex = .finished → ∀ c ∈ out, c.result.isSome) ∧
      ((∀ c ∈ cmds, pyezCmdOk env c) → ex = .finished) ∧
      (ex ≠ .finished → ∃ i < cmds.length,
        (∀ c ∈ out.take i, c.result.isSome) ∧
        out.drop (i + 1) = cmds.drop (i + 1)) ∧
      (∀ m, ex = .early m → m ≠ "") := by
  intro cmds
  induction cmds with
  | nil =>
    intro clock out clk2 ex h
    simp only [pyezRunLoop, Prod.mk.injEq] at h
    obtain ⟨rfl, rfl, rfl⟩ := h
    exact ⟨rfl, fun _ c hc => absurd hc (List.not_mem_nil c),
      fun _ => rfl, fun hne => absurd rfl hne, fun m hm => by cases hm⟩
  | cons c rest ih =>
    intro clock out clk2 ex h
    simp only [pyezRunLoop] at h
    rcases hstep : pyezStepCommand env clock c with
      ⟨c2, clock2⟩ | ⟨c2, clock2, m⟩ | ⟨c2, clock2, m⟩
    all_goals simp only [hstep] at h
    · rcases hrec : pyezRunLoop env clock2 rest with ⟨rest2, clk3, ex2⟩
      simp only [hrec, Prod.mk.injEq] at h
      obtain ⟨rfl, rfl, rfl⟩ := h
      obtain ⟨ihl, ihpop, ihok, ihsplit, ihmsg⟩ :=
        ih clock2 rest2 clk3 ex2 hrec
      have hcpop : c2.result.isSome :=
        pyezStep_done_result env clock c c2 clock2 hstep
      refine ⟨by simp [ihl], ?_, ?_, ?_, ihmsg⟩
      · intro hfin c3 hc3
        rcases List.mem_cons.mp hc3 with rfl | hm
        · exact hcpop
        · exact ihpop hfin c3 hm
      · intro hall
        exact ihok (fun c3 hc3 => hall c3 (List.mem_cons_of_mem _ hc3))
      · intro hne
        obtain ⟨i, hi, hpre, hsuf⟩ := ihsplit hne
        refine ⟨i + 1, by simpa using Nat.succ_lt_succ hi, ?_, ?_⟩
        · intro c3 hc3
          rw [List.take_succ_cons] at hc3
          rcases List.mem_cons.mp hc3 with rfl | hm
          · exact hcpop
          · exact hpre c3 hm
        · simpa [List.drop_succ_cons] using hsuf
    · simp only [Prod.mk.injEq] at h
      obtain ⟨rfl, rfl, rfl⟩ := h
      refine ⟨by simp, ?_, ?_, ?_, ?_⟩
      · intro hfin; cases hfin
      · intro hall
        obtain ⟨c3, k3, hd⟩ :=
          pyezStep_done_of_ok env clock c (hall c (List.mem_cons_self _ _))
        rw [hstep] at hd
        cases hd
      · intro _
        exact ⟨0, by simp, by simp, by simp⟩
      · intro m2 hm2
        cases hm2
        exact pyezStep_early_msg env clock c c2 clock2 m hstep
    · simp only [Prod.mk.injEq] at h
      obtain ⟨rfl, rfl, rfl⟩ := h
      refine ⟨by simp, ?_, ?_, ?_, ?_⟩
      · intro hfin; cases hfin
      · intro hall
        obtain ⟨c3, k3, hd⟩ :=
          pyezStep_done_of_ok env clock c (hall c (List.mem_cons_self _ _))
        rw [hstep] at hd
        cases hd
      · intro _
        exact ⟨0, by simp, by simp, by simp⟩
      · intro m2 hm2; cases hm2

/-- Loop messages of the SSH-style driver are never empty. -/
theorem netmikoRunLoop_msg (env : NetmikoEnv ρ) :
    ∀ (cmds : List (Command ρ)) (clock : Nat)
      (out : List (Command ρ)) (err : Option String) (clk2 : Nat),
      netmikoRunLoop env clock cmds = (out, err, clk2) →
      ∀ m, err = some m → m ≠ "" := by
  intro cmds
  induction cmds with
  | nil =>
    intro clock out err clk2 h m hm
    simp only [netmikoRunLoop, Prod.mk.injEq] at h
    obtain ⟨rfl, rfl, rfl⟩ := h
    cases hm
  | cons c rest ih =>
    intro clock out err clk2 h m hm
    simp only [netmikoRunLoop] at h
    cases hs : env.send c.command c.params with
    | error e =>
      rw [hs] at h
      simp only [Prod.mk.injEq] at h
      obtain ⟨rfl, rfl, rfl⟩ := h
      cases hm
      exact append_ne_empty_left _ _ (by decide)
    | ok r =>
      rw [hs] at h
      rcases hrec : netmikoRunLoop env (clock + 1) rest with ⟨rest2, err2, clk3⟩
      rw [hrec] at h
      simp only [Prod.mk.injEq] at h
      obtain ⟨rfl, rfl, rfl⟩ := h
      exact ih (clock + 1) rest2 err2 clk3 hrec m hm

/-- The batch behaviour of one `NetmikoDispatcher.execute` call. -/
theorem netmikoExecute_spec (env : NetmikoEnv ρ) (conn : ConnectParams)
    (st : NetmikoState) (clock : Nat) (cmds : List (Command ρ)) :
    ((netmikoExecute env conn st clock cmds).commands.length = cmds.length) ∧
    ((st.outter_dev.isSome ∨ env.connectResult = .ok ()) →
      (∀ c ∈ cmds, (env.send c.command c.params).isOk) →
      (netmikoExecute env conn st clock cmds).error = none ∧
      ∀ c ∈ (netmikoExecute env conn st clock cmds).commands, populatedN c) ∧
    ((netmikoExecute env conn st clock cmds).error.isSome →
      (netmikoExecute env conn st clock cmds).msg ≠ "" ∧
      (netmikoExecute env conn st clock cmds).error
        = some (.netmikoError (netmikoExecute env conn st clock cmds).msg) ∧
      ((netmikoExecute env conn st clock cmds).commands = cmds ∨
        ∃ i < cmds.length,
          (∀ c ∈ (netmikoExecute env conn st clock cmds).commands.take i,
            populatedN c) ∧
          (netmikoExecute env conn st clock cmds).commands.drop (i + 1)
            = cmds.drop (i + 1))) := by
  have main : ∀ (p : Bool) (st1 : NetmikoState) (dev : Nat),
      ((netmikoFinish p st1 dev
          (netmikoRunLoop env clock cmds)).commands.length = cmds.length) ∧
      ((∀ c ∈ cmds, (env.send c.command c.params).isOk) →
        (netmikoFinish p st1 dev (netmikoRunLoop env clock cmds)).error = none ∧
        ∀ c ∈ (netmikoFinish p st1 dev
            (netmikoRunLoop env clock cmds)).commands, populatedN c) ∧
      ((netmikoFinish p st1 dev (netmikoRunLoop env clock cmds)).error.isSome →
        (netmikoFinish p st1 dev (netmikoRunLoop env clock cmds)).msg ≠ "" ∧
        (netmikoFinish p st1 dev (netmikoRunLoop env clock cmds)).error
          = some (.netmikoError (netmikoFinish p st1 dev
              (netmikoRunLoop env clock cmds)).msg) ∧
        ((netmikoFinish p st1 dev (netmikoRunLoop env clock cmds)).commands
            = cmds ∨
          ∃ i < cmds.length,
            (∀ c ∈ (netmikoFinish p st1 dev
                (netmikoRunLoop env clock cmds)).commands.take i,
              populatedN c) ∧
            (netmikoFinish p st1 dev
                (netmikoRunLoop env clock cmds)).commands.drop (i + 1)
              = cmds.drop (i + 1))) := by
    intro p st1 dev
    rcases hl : netmikoRunLoop env clock cmds with ⟨out, err, clk2⟩
    obtain ⟨hlen, hpop, hok, hsplit⟩ :=
      netmikoRunLoop_spec env cmds clock out err clk2 hl
    have hmsg := netmikoRunLoop_msg env cmds clock out err clk2 hl
    cases err with
    | none =>
      refine ⟨by simpa [netmikoFinish] using hlen, ?_, ?_⟩
      · intro _
        exact ⟨by simp [netmikoFinish], fun c hc =>
          hpop rfl c (by simpa [netmikoFinish] using hc)⟩
      · intro habs
        simp [netmikoFinish] at habs
    | some m =>
      refine ⟨by simpa [netmikoFinish] using hlen, ?_, ?_⟩
      · intro hall
        cases (hok hall)
      · intro _
        refine ⟨by simpa [netmikoFinish] using hmsg m rfl,
          by simp [netmikoFinish], Or.inr ?_⟩
        obtain ⟨i, hi, hpre, hsuf⟩ := hsplit (by simp)
        exact ⟨i, hi, fun c hc =>
          hpre c (by simpa [netmikoFinish] using hc),
          by simpa [netmikoFinish] using hsuf⟩
  unfold netmikoExecute
  rcases hs : st.outter_dev with _ | dev
  · rcases hc : env.connectResult with e | u
    · refine ⟨rfl, ?_, ?_⟩
      · intro hconn _
        rcases hconn with hsome | hok2
        · simp at hsome
        · simp at hok2
      · intro _
        exact ⟨append_ne_empty_left _ _ (by decide), rfl, Or.inl rfl⟩
    · obtain ⟨m1, m2, m3⟩ := main conn.persist
        ⟨some st.next_handle, st.next_handle + 1⟩ st.next_handle
      exact ⟨m1, fun _ hall => m2 hall, m3⟩
  · obtain ⟨m1, m2, m3⟩ := main conn.persist st dev
    exact ⟨m1, fun _ hall => m2 hall, m3⟩

/-- The batch behaviour of one `PyEZDispatcher.execute` call. -/
theorem pyezExecute_spec (env : PyezEnv ρ) (conn : ConnectParams)
    (st : PyezState) (clock : Nat) (cmds : List (Command ρ)) :
    ((pyezExecute env conn st clock cmds).commands.length = cmds.length) ∧
    (env.connectResult = .ok () → (∀ c ∈ cmds, pyezCmdOk env c) →
      (pyezExecute env conn st clock cmds).error = none ∧
      ∀ c ∈ (pyezExecute env conn st clock cmds).commands, c.result.isSome) ∧
    ((pyezExecute env conn st clock cmds).error.isSome →
      (pyezExecute env conn st clock cmds).msg ≠ "" ∧
      (pyezExecute env conn st clock cmds).error
        = some (.pyezError (pyezExecute env conn st clock cmds).msg) ∧
      ((pyezExecute env conn st clock cmds).commands = cmds ∨
        ∃ i < cmds.length,
          (∀ c ∈ (pyezExecute env conn st clock cmds).commands.take i,
            c.result.isSome) ∧
          (pyezExecute env conn st clock cmds).commands.drop (i + 1)
            = cmds.drop (i + 1))) := by
  unfold pyezExecute
  rcases hc : env.connectResult with e | u
  · refine ⟨rfl, ?_, ?_⟩
    · intro hok2 _
      simp at hok2
    · intro _
      exact ⟨append_ne_empty_left _ _ (by decide), rfl, Or.inl rfl⟩
  · rcases hl : pyezRunLoop env clock cmds with ⟨out, clk2, ex⟩
    obtain ⟨hlen, hpop, hok, hsplit, hmsg⟩ :=
      pyezRunLoop_spec env cmds clock out clk2 ex hl
    cases ex with
    | finished =>
      refine ⟨hlen, ?_, ?_⟩
      · intro _ _
        exact ⟨rfl, fun c hc => hpop rfl c hc⟩
      · intro habs
        simp at habs
    | early m =>
      refine ⟨hlen, ?_, ?_⟩
      · intro _ hall
        cases (hok hall)
      · intro _
        refine ⟨hmsg m rfl, rfl, Or.inr ?_⟩
        exact hsplit (by simp)
    | exn m =>
      refine ⟨hlen, ?_, ?_⟩
      · intro _ hall
        cases (hok hall)
      · intro _
        refine ⟨append_ne_empty_left _ _ (by decide), rfl, Or.inr ?_⟩
        exact hsplit (by simp)

/-- C2: dispatcher execution never raises across the batch boundary —
each driver call returns an `(error, msg)` outcome pair; a fully
successful batch (session obtained, every command's device operation
succeeding) returns a null error with every command's result stored (the
SSH-style driver also populates both timing fields); and on any failure
the outcome carries a non-null typed error (`NetmikoError`/`PyezError`)
with a non-empty descriptive message, the commands executed before the
failing one retain their populated result (and timing for the SSH-style
driver), and no command after the failing one is executed (the suffix
past the failure point is returned untouched). -/
theorem dispatch_batch_semantics (ρ : Type) (envN : NetmikoEnv ρ)
    (envP : PyezEnv ρ) (conn : ConnectParams) (stN : NetmikoState)
    (stP : PyezState) (clock : Nat) (cmds : List (Command ρ))
    (rN : NetmikoRun ρ) (rP : PyezRun ρ)
    (hrN : netmikoExecute envN conn stN clock cmds = rN)
    (hrP : pyezExecute envP conn stP clock cmds = rP) :
    (rN.commands.length = cmds.length ∧ rP.commands.length = cmds.length) ∧
    ((stN.outter_dev.isSome ∨ envN.connectResult = .ok ()) →
      (∀ c ∈ cmds, (envN.send c.command c.params).isOk) →
      rN.error = none ∧ ∀ c ∈ rN.commands, populatedN c) ∧
    (rN.error.isSome →
      rN.msg ≠ "" ∧ rN.error = some (.netmikoError rN.msg) ∧
      (rN.commands = cmds ∨ ∃ i < cmds.length,
        (∀ c ∈ rN.commands.take i, populatedN c) ∧
        rN.commands.drop (i + 1) = cmds.drop (i + 1))) ∧
    (envP.connectResult = .ok () → (∀ c ∈ cmds, pyezCmdOk envP c) →
      rP.error = none ∧ ∀ c ∈ rP.commands, c.result.isSome) ∧
    (rP.error.isSome →
      rP.msg ≠ "" ∧ rP.error = some (.pyezError rP.msg) ∧
      (rP.commands = cmds ∨ ∃ i < cmds.length,
        (∀ c ∈ rP.commands.take i, c.result.isSome) ∧
        rP.commands.drop (i + 1) = cmds.drop (i + 1))) := by
  subst hrN hrP
  obtain ⟨hN1, hN2, hN3⟩ := netmikoExecute_spec envN conn stN clock cmds
  obtain ⟨hP1, hP2, hP3⟩ := pyezExecute_spec envP conn stP clock cmds
  exact ⟨⟨hN1, hP1⟩, hN2, hN3, hP2, hP3⟩

/-- Witness for C2: a one-command batch against an always-answering
SSH-style device comes back with a null error and a populated command,
and the same batch against a NETCONF-style device likewise. -/
theorem dispatch_batch_semantics_witness :
    ((netmikoExecute (ρ := Unit) ⟨.ok (), fun _ _ => .ok ()⟩
        ⟨"h", "cisco_xe", false, "u", "p", none, 60, 10, 22, 830⟩
        ⟨none, 0⟩ 0
        [mkCatalogCommand "interface" "ssh"
          ⟨"netmiko", ["show interfaces"], [("use_genie", .bool true)]⟩
          "show interfaces"]).error = none ∧
      ∀ c ∈ (netmikoExecute (ρ := Unit) ⟨.ok (), fun _ _ => .ok ()⟩
        ⟨"h", "cisco_xe", false, "u", "p", none, 60, 10, 22, 830⟩
        ⟨none, 0⟩ 0
        [mkCatalogCommand "interface" "ssh"
          ⟨"netmiko", ["show interfaces"], [("use_genie", .bool true)]⟩
          "show interfaces"]).commands, populatedN c) ∧
    ((pyezExecute (ρ := Unit) ⟨.ok (), fun _ _ => .noModule "", fun _ _ => .found 0,
        fun _ => (), fun _ => .ok ()⟩
        ⟨"h", "juniper_junos", false, "u", "p", none, 60, 10, 22, 830⟩
        ⟨0⟩ 0
        [mkCatalogCommand "bgp_session" "netconf"
          ⟨"pyez", ["get-bgp-neighbor-information"], [("table", .str "NtcBgpTable")]⟩
          "get-bgp-neighbor-information"]).error = none ∧
      ∀ c ∈ (pyezExecute (ρ := Unit) ⟨.ok (), fun _ _ => .noModule "",
        fun _ _ => .found 0, fun _ => (), fun _ => .ok ()⟩
        ⟨"h", "juniper_junos", false, "u", "p", none, 60, 10, 22, 830⟩
        ⟨0⟩ 0
        [mkCatalogCommand "bgp_session" "netconf"
          ⟨"pyez", ["get-bgp-neighbor-information"], [("table", .str "NtcBgpTable")]⟩
          "get-bgp-neighbor-information"]).commands, c.result.isSome) :=
  ⟨(dispatch_batch_semantics Unit ⟨.ok (), fun _ _ => .ok ()⟩
      ⟨.ok (), fun _ _ => .noModule "", fun _ _ => .found 0,
        fun _ => (), fun _ => .ok ()⟩
      ⟨"h", "cisco_xe", false, "u", "p", none, 60, 10, 22, 830⟩
      ⟨none, 0⟩ ⟨0⟩ 0
      [mkCatalogCommand "interface" "ssh"
        ⟨"netmiko", ["show interfaces"], [("use_genie", .bool true)]⟩
        "show interfaces"] _ _ rfl rfl).2.1 (Or.inr rfl) (fun _ _ => rfl),
    (dispatch_batch_semantics Unit ⟨.ok (), fun _ _ => .ok ()⟩
      ⟨.ok (), fun _ _ => .noModule "", fun _ _ => .found 0,
        fun _ => (), fun _ => .ok ()⟩
      ⟨"h", "juniper_junos", false, "u", "p", none, 60, 10, 22, 830⟩
      ⟨none, 0⟩ ⟨0⟩ 0
      [mkCatalogCommand "bgp_session" "netconf"
        ⟨"pyez", ["get-bgp-neighbor-information"], [("table", .str "NtcBgpTable")]⟩
        "get-bgp-neighbor-information"] _ _ rfl rfl).2.2.2.1 rfl
      (fun c hc => by
        rcases List.mem_singleton.mp hc with rfl
        exact Or.inr ⟨0, rfl⟩)⟩

/-- C6 (amended): in the NETCONF-style driver's table-retrieval mode
(selected per-Command by a truthy `table` parse hint, resolved custom tier
first then built-in tier) the recorded timing interval covers ONLY the
table resolution — `start_time` is taken just before the table class is
instantiated and `timestamp` just after it, and the row fetch
(`table.get()`) runs on the NEXT clock tick, strictly after the recorded
end of the interval — while the fetched rows are stored as the command's
result; a command without the hint is executed as a direct structured
query (`dev.rpc.get`) on the raw command text. -/
theorem pyez_table_mode_semantics (ρ : Type) (env : PyezEnv ρ) (clock : Nat)
    (c : Command ρ) (tv : PyVal) (t : Nat) :
    (pyDictGet c.params "table" = some tv → pyTruthy tv = true →
      env.customLookup (pyezProtocol c.collector) (pyStr tv) = .found t →
      ∃ c2, pyezStepCommand env clock c = .done c2 (clock + 2) ∧
        c2.start_time = some clock ∧ c2.timestamp = some (clock + 1) ∧
        c2.execution_time = some 1 ∧ c2.result = some (env.tableGet t) ∧
        clock + 1 < clock + 2) ∧
    (pyDictGet c.params "table" = some tv → pyTruthy tv = true →
      (∃ e, env.customLookup (pyezProtocol c.collector) (pyStr tv) = .noModule e
          ∨ env.customLookup (pyezProtocol c.collector) (pyStr tv) = .noTable e) →
      env.pyezLookup (pyezProtocol c.collector) (pyStr tv) = .found t →
      ∃ c2, pyezStepCommand env clock c = .done c2 (clock + 2) ∧
        c2.start_time = some clock ∧ c2.timestamp = some (clock + 1) ∧
        c2.execution_time = some 1 ∧ c2.result = some (env.tableGet t) ∧
        clock + 1 < clock + 2) ∧
    (pyDictGet c.params "table" = none →
      ∀ r, env.rpcGet c.command = .ok r →
        pyezStepCommand env clock c
          = .done { c with result := some r } (clock + 1)) := by
  refine ⟨?_, ?_, ?_⟩
  · intro htv ht hcust
    refine ⟨{ (c.start_timing clock).stop_timing (clock + 1) with
        result := some (env.tableGet t) }, ?_, ?_, ?_, ?_, rfl, by omega⟩
    · unfold pyezStepCommand
      simp only [htv, if_pos ht, hcust]
    · simp [Command.start_timing, Command.stop_timing]
    · simp [Command.start_timing, Command.stop_timing]
    · simp [Command.start_timing, Command.stop_timing]
  · intro htv ht hfb hpyez
    obtain ⟨e, he⟩ := hfb
    rcases he with he | he
    · refine ⟨{ (c.start_timing clock).stop_timing (clock + 1) with
          result := some (env.tableGet t) }, ?_, ?_, ?_, ?_, rfl, by omega⟩
      · unfold pyezStepCommand
        simp only [htv, if_pos ht, he]
        unfold pyezFallback
        simp only [hpyez]
      · simp [Command.start_timing, Command.stop_timing]
      · simp [Command.start_timing, Command.stop_timing]
      · simp [Command.start_timing, Command.stop_timing]
    · refine ⟨{ ((c.start_timing clock).start_timing clock).stop_timing
          (clock + 1) with result := some (env.tableGet t) }, ?_, ?_, ?_, ?_,
          rfl, by omega⟩
      · unfold pyezStepCommand
        simp only [htv, if_pos ht, he]
        unfold pyezFallback
        simp only [hpyez]
      · simp [Command.start_timing, Command.stop_timing]
      · simp [Command.start_timing, Command.stop_timing]
      · simp [Command.start_timing, Command.stop_timing]
  · intro htv r hr
    unfold pyezStepCommand
    simp only [htv, hr]

/-- Witness for C6: a concrete table-mode command resolved at the custom
tier gets the interval [0, 1] recorded and the fetched rows stored. -/
theorem pyez_table_mode_semantics_witness :
    ∃ c2, pyezStepCommand (ρ := Nat)
        ⟨.ok (), fun _ _ => .found 7, fun _ _ => .noModule "",
          fun _ => 99, fun _ => .ok 0⟩ 0
        (mkCatalogCommand "bgp_session" "netconf"
          ⟨"pyez", ["get-bgp-neighbor-information"],
            [("table", .str "NtcBgpTable")]⟩
          "get-bgp-neighbor-information")
        = .done c2 (0 + 2) ∧
      c2.start_time = some 0 ∧ c2.timestamp = some (0 + 1) ∧
      c2.execution_time = some 1 ∧ c2.result = some 99 ∧ 0 + 1 < 0 + 2 :=
  (pyez_table_mode_semantics Nat
      ⟨.ok (), fun _ _ => .found 7, fun _ _ => .noModule "",
        fun _ => 99, fun _ => .ok 0⟩ 0
      (mkCatalogCommand "bgp_session" "netconf"
        ⟨"pyez", ["get-bgp-neighbor-information"],
          [("table", .str "NtcBgpTable")]⟩
        "get-bgp-neighbor-information")
      (.str "NtcBgpTable") 7).1 (by decide) (by decide) rfl

/-- C6 counterexample: the recorded interval does NOT cover the row
fetch.  In a concrete run the command's recorded interval is [0, 1]
(resolution only) and its rows are stored by a fetch that completes at
clock 2, strictly after the recorded end 1 — the claim's "covers both the
table resolution and the row fetch" fails. -/
theorem pyez_table_timing_counterexample :
    ((pyezExecute (ρ := Nat)
        ⟨.ok (), fun _ _ => .found 7, fun _ _ => .noModule "",
          fun _ => 99, fun _ => .ok 0⟩
        ⟨"h", "juniper_junos", false, "u", "p", none, 60, 10, 22, 830⟩
        ⟨0⟩ 0
        [mkCatalogCommand "bgp_session" "netconf"
          ⟨"pyez", ["get-bgp-neighbor-information"],
            [("table", .str "NtcBgpTable")]⟩
          "get-bgp-neighbor-information"]).commands.head?.map
        (fun c => (c.start_time, c.timestamp, c.result))
      = some (some 0, some 1, some 99)) ∧
    (pyezExecute (ρ := Nat)
        ⟨.ok (), fun _ _ => .found 7, fun _ _ => .noModule "",
          fun _ => 99, fun _ => .ok 0⟩
        ⟨"h", "juniper_junos", false, "u", "p", none, 60, 10, 22, 830⟩
        ⟨0⟩ 0
        [mkCatalogCommand "bgp_session" "netconf"
          ⟨"pyez", ["get-bgp-neighbor-information"],
            [("table", .str "NtcBgpTable")]⟩
          "get-bgp-neighbor-information"]).clock = 2 ∧
    ¬(2 ≤ 1) := by
  refine ⟨by decide, by decide, by decide⟩

/-! ## normalizer/bgp_sessions.py

The raw parser outputs a processor consumes are typed by shape: a list of
flat textfsm rows, a genie tree (routing instance → neighbor → data; the
`.get(..., {})` chains of the source become `Option` fields), or a list
of typed PyEZ table rows.  `IPvAnyAddress` fields are modelled as the
address strings pydantic would parse. -/

/-- Python exceptions the normalization processors can raise. -/
inductive PyExn where
  | indexError
  | typeError (msg : String)
  | validationError (msg : String)
  | bgpSessionError (msg : String)
  | interfacesError (msg : String)
  | notImplementedError (msg : String)
deriving DecidableEq, Repr

/-- Python truthiness of a pydantic model instance: `BaseModel` defines
neither `__bool__` nor `__len__`, so an instance is ALWAYS truthy — the
`if not command:` guards in the processors can never fire. -/
def pydanticModelTruthy (_c : Command ρ) : Bool := true

/-- `params.get(key)` truthiness. -/
def paramsTruthy (params : List (String × PyVal)) (key : String) : Bool :=
  match pyDictGet params key with
  | some v => pyTruthy v
  | none => false

/-- `str.lower()` on the modelled character fragment. -/
def pyStrLower (s : String) : String := ⟨s.data.map pyToLower⟩

/-- Python `needle in hay` on strings: substring containment. -/
def strContainsSub (hay needle : String) : Bool :=
  hay.data.tails.any (fun t => needle.data.isPrefixOf t)

/-- `SESSION_STATE_MAP.get(state)` of `bgp_sessions.py`. -/
def SESSION_STATE_MAP (state : String) : Option Int :=
  match state with
  | "idle" => some 1
  | "connect" => some 2
  | "active" => some 3
  | "opensent" => some 4
  | "openconfirm" => some 5
  | "established" => some 6
  | _ => none

/-- `bgp_type` of `bgp_sessions.py`: case-insensitive substring match. -/
def bgp_type (raw_type : String) : String :=
  if strContainsSub (pyStrLower raw_type) "external" ||
      strContainsSub (pyStrLower raw_type) "ebgp" then "EXTERNAL"
  else if strContainsSub (pyStrLower raw_type) "internal" ||
      strContainsSub (pyStrLower raw_type) "ibgp" then "INTERNAL"
  else raw_type

/-- `strip_ip_address`: `raw.split("+")[0] if "+" in raw else raw`. -/
def strip_ip_address (raw_address : String) : String :=
  if raw_address.data.contains '+' then
    ⟨raw_address.data.takeWhile (fun c => c ≠ '+')⟩
  else raw_address

/-- The `BgpSession` canonical record (`BaseResourceModel` subclass;
address fields carry the validated address string). -/
structure BgpSession where
  local_address : Option String := none
  neighbor_address : Option String := none
  local_as : Option Int := none
  peer_as : Option Int := none
  peer_router_id : Option String := none
  router_id : Option String := none
  peer_type : Option String := none
  routing_instance : String := "default"
  peer_group : Option String := none
  prefixes_denied : Option Int := none
  prefixes_suppressed : Option Int := none
  prefixes_received : Option Int := none
  prefixes_received_pre_policy : Option Int := none
  prefixes_sent : Option Int := none
  prefixes_installed : Option Int := none
  session_state : Option String := none
  session_state_code : Option Int := none
deriving DecidableEq, Repr

/-- One flat textfsm row of `show bgp all neighbor` as the processor
indexes it (an absent-but-listed value arrives as the empty string). -/
structure TextFsmBgpRow where
  localhost_ip : String
  remote_ip : String
  remote_as : Int
  remote_router_id : String
  bgp_state : String
  peer_group : String
deriving DecidableEq, Repr

/-- One genie neighbor entry; the source's defensive
`.get("...", {}).get(...)` chains become `Option` fields, the mandatory
`data["session_state"]` a plain field. -/
structure GenieNeighbor where
  local_host : Option String := none
  remote_as : Option Int := none
  router_id : Option String := none
  session_state : String
  prefixes_current_received : Option Int := none
  prefixes_current_sent : Option Int := none
  used_as_bestpath : Option Int := none
deriving DecidableEq, Repr

/-- A genie routing-instance entry: its neighbors keyed by address. -/
structure GenieVrf where
  neighbor : List (String × GenieNeighbor)
deriving DecidableEq, Repr

/-- The genie parse result: routing instances keyed by name (its single
top-level key `vrf`; dict truthiness is emptiness of that mapping). -/
structure GenieBgpResult where
  vrf : List (String × GenieVrf)
deriving DecidableEq, Repr

/-- The raw shapes `bgp_sessions.netmiko_processor` consumes. -/
inductive BgpRaw where
  | textfsm (rows : List TextFsmBgpRow)
  | genie (tree : GenieBgpResult)
deriving DecidableEq, Repr

/-- Python truthiness of the raw result (`if not command.result:`):
absent is falsy, a row list is falsy iff empty, a parse tree iff it has
no routing instances. -/
def bgpRawTruthy : Option BgpRaw → Bool
  | none => false
  | some (.textfsm rows) => rows ≠ []
  | some (.genie tree) => tree.vrf ≠ []

/-- The `BgpSession` built from one textfsm row (source lines 150–160). -/
def textfsmRowToSession (item : TextFsmBgpRow) : BgpSession :=
  { local_address := some item.localhost_ip
    neighbor_address := some item.remote_ip
    peer_as := some item.remote_as
    peer_router_id := some item.remote_router_id
    session_state := some (pyStrLower item.bgp_state)
    session_state_code := SESSION_STATE_MAP (pyStrLower item.bgp_state)
    peer_group := if item.peer_group ≠ "" then some item.peer_group else none }

/-- The `BgpSession` built from one genie neighbor (source lines
164–188). -/
def genieNeighborToSession (vrf_name neighbor_ip : String)
    (data : GenieNeighbor) : BgpSession :=
  { local_address := data.local_host
    neighbor_address := some neighbor_ip
    peer_as := data.remote_as
    router_id := data.router_id
    session_state := some (pyStrLower data.session_state)
    session_state_code := SESSION_STATE_MAP (pyStrLower data.session_state)
    routing_instance := vrf_name
    prefixes_received := data.prefixes_current_received
    prefixes_sent := data.prefixes_current_sent
    prefixes_installed := data.used_as_bestpath }

/-- `bgp_sessions.netmiko_processor`.  NOTE the source's precondition
order: `command = commands[0]` runs FIRST, so an empty list raises
`IndexError` before the `if not command:` guard (itself dead code, a
pydantic model being always truthy) can raise
`BgpSessionError("No command found")`; only a present-but-falsy result
reaches the `BgpSessionError("No result returned in Command")` guard. -/
def bgp_netmiko_processor (commands : List (Command BgpRaw))
    (connector : ConnectParams) : Except PyExn (List BgpSession) :=
  match commands with
  | [] => .error .indexError
  | command :: _ =>
    if pydanticModelTruthy command = false then
      .error (.bgpSessionError "No command found")
    else if bgpRawTruthy command.result = false then
      .error (.bgpSessionError "No result returned in Command")
    else if connector.device_type = "cisco_ios" ∨
        connector.device_type = "cisco_xe" then
      if paramsTruthy command.params "use_textfsm" then
        match command.result with
        | some (.textfsm rows) => .ok (rows.map textfsmRowToSession)
        | _ => .error (.typeError "textfsm branch over a non-row result")
      else if paramsTruthy command.params "use_genie" then
        match command.result with
        | some (.genie tree) =>
          .ok (tree.vrf.flatMap (fun vp =>
            vp.2.neighbor.map (fun np =>
              genieNeighborToSession vp.1 np.1 np.2)))
        | _ => .error (.typeError "genie branch over a non-tree result")
      else .error (.notImplementedError "Netmiko parser not implemented")
    else .error (.notImplementedError "Not yet for other device types")

/-- One typed row of the `NtcBgpTable` PyEZ table; counter fields the
device may omit are `Option`. -/
structure NtcBgpRow where
  local_address : String
  peer_address : String
  local_as : Option Int := none
  peer_as : Option Int := none
  peer_id : Option String := none
  local_id : Option String := none
  peer_type : String
  prefixes_accepted : Option Int := none
  prefixes_received : Option Int := none
  prefixes_active : Option Int := none
  prefixes_suppressed : Option Int := none
  prefixes_advertised : Option Int := none
  peer_state : String
deriving DecidableEq, Repr

/-- `int(v) if v else 0` over an optional integer field: an absent value
and the (falsy) zero both give 0, any other value passes through. -/
def intIfTruthy : Option Int → Int
  | none => 0
  | some n => if n ≠ 0 then n else 0

/-- `f(v) if v else None` truthiness over an optional string field. -/
def optStrTruthy : Option String → Bool
  | none => false
  | some s => s ≠ ""

/-- Python truthiness of the PyEZ result (a list of table rows). -/
def rowsTruthy : Option (List NtcBgpRow) → Bool
  | none => false
  | some rows => rows ≠ []

/-- The `BgpSession` built from one PyEZ table row (source lines
222–255), including the denied-prefix derivation
`prefixes_denied = prefixes_received_pre_policy - prefixes_received`
where the two operands default to 0 when their source field is absent or
zero. -/
def pyezRowToSession (item : NtcBgpRow) : BgpSession :=
  let prefixes_received := intIfTruthy item.prefixes_accepted
  let prefixes_received_pre_policy := intIfTruthy item.prefixes_received
  let prefixes_denied := prefixes_received_pre_policy - prefixes_received
  { local_address := some (strip_ip_address item.local_address)
    neighbor_address := some (strip_ip_address item.peer_address)
    local_as := item.local_as
    peer_as := item.peer_as
    peer_router_id :=
      if optStrTruthy item.peer_id then item.peer_id.map strip_ip_address
      else none
    router_id :=
      if optStrTruthy item.local_id then item.local_id.map strip_ip_address
      else none
    peer_type := some (bgp_type item.peer_type)
    prefixes_received_pre_policy := some prefixes_received_pre_policy
    prefixes_received := some prefixes_received
    prefixes_denied := some prefixes_denied
    prefixes_installed := some (intIfTruthy item.prefixes_active)
    prefixes_suppressed := some (intIfTruthy item.prefixes_suppressed)
    prefixes_sent := some (intIfTruthy item.prefixes_advertised)
    session_state := some (pyStrLower item.peer_state)
    session_state_code := SESSION_STATE_MAP (pyStrLower item.peer_state) }

/-- `bgp_sessions.pyez_processor`: same precondition pattern as the
netmiko one; the `table` parse hint is checked per row (the check is
loop-invariant, so the loop either maps every row or raises
`NotImplementedError` at the first). -/
def bgp_pyez_processor (commands : List (Command (List NtcBgpRow)))
    (connector : ConnectParams) : Except PyExn (List BgpSession) :=
  match commands with
  | [] => .error .indexError
  | command :: _ =>
    if pydanticModelTruthy command = false then
      .error (.bgpSessionError "No command found")
    else if rowsTruthy command.result = false then
      .error (.bgpSessionError "No result returned in Command")
    else if paramsTruthy command.params "table" then
      .ok ((command.result.getD []).map pyezRowToSession)
    else .error (.notImplementedError "PyEZ parser not implemented")

/-! ## normalizer/base.py and normalizer/interfaces.py

Pydantic construction is modelled as building a record from a kwargs
association list.  `BaseResourceModel.Config` sets `extra = "ignore"`:
undeclared input keys are dropped and the record has no storage for them.
`PortChannel` OVERRIDES this with `extra = "allow"`: undeclared input
keys are stored on the instance, modelled by an explicit `extras`
field. -/

/-- The pydantic bool validator on the values this code feeds it. -/
def coerceBool : PyVal → Option Bool
  | .bool b => some b
  | .int 0 => some false
  | .int 1 => some true
  | _ => none

/-- `PortChannel` of `interfaces.py`: declared field
`port_channel_member`, and — because its `Config` sets
`extra = "allow"` — every undeclared input key, kept in `extras`. -/
structure PortChannel where
  port_channel_member : Bool
  extras : List (String × PyVal) := []
deriving DecidableEq, Repr

/-- `PortChannel(**kwargs)`: validate the declared field, STORE all
undeclared keys (`extra = "allow"`). -/
def mkPortChannel (kwargs : List (String × PyVal)) : Except String PortChannel :=
  match pyDictGet kwargs "port_channel_member" with
  | none => .error "field required: port_channel_member"
  | some v =>
    match coerceBool v with
    | some b =>
      .ok ⟨b, kwargs.filter (fun kv => kv.1 ≠ "port_channel_member")⟩
    | none => .error "value could not be parsed to a boolean"

/-- `InterfaceIP` of `interfaces.py` (a `BaseResourceModel`, so
`extra = "ignore"`); the address carries the validated string. -/
structure InterfaceIP where
  address : Option String := none
  role : Option String := none
deriving DecidableEq, Repr

/-- `InterfaceIP(**kwargs)`: validate the two declared fields and DROP
every undeclared key (`extra = "ignore"` — the record cannot hold
them). -/
def mkInterfaceIP (kwargs : List (String × PyVal)) : Except String InterfaceIP :=
  let addr : Except String (Option String) :=
    match pyDictGet kwargs "address" with
    | none => .ok none
    | some .none => .ok none
    | some (.str s) => .ok (some s)
    | some _ => .error "value is not a valid interface address"
  let role : Except String (Option String) :=
    match pyDictGet kwargs "role" with
    | none => .ok none
    | some .none => .ok none
    | some (.str s) =>
      if s = "primary" ∨ s = "secondary" then .ok (some s)
      else .error "unexpected value; permitted: primary, secondary"
    | some _ => .error "unexpected value; permitted: primary, secondary"
  match addr, role with
  | .ok a, .ok r => .ok ⟨a, r⟩
  | .error e, _ => .error e
  | _, .error e => .error e

/-- The interface counters record (`InterfaceCounters`); the raw genie
counters dict is modelled by the same shape, each `.get` an `Option`
field, so the source's field-by-field copy is the identity. -/
structure InterfaceCounters where
  in_pkts : Option Int := none
  in_octets : Option Int := none
  in_multicast_pkts : Option Int := none
  in_broadcast_pkts : Option Int := none
  in_runts : Option Int := none
  in_giants : Option Int := none
  in_throttles : Option Int := none
  in_errors : Option Int := none
  in_crc_errors : Option Int := none
  out_pkts : Option Int := none
  out_octets : Option Int := none
  out_multicast_pkts : Option Int := none
  out_broadcast_pkts : Option Int := none
  out_errors : Option Int := none
  out_collision : Option Int := none
  out_unknown_protocl_drops : Option Int := none
  out_late_collision : Option Int := none
  out_deferred : Option Int := none
  out_lost_carrier : Option Int := none
  out_no_carrier : Option Int := none
deriving DecidableEq, Repr

/-- The `Interface` canonical record of `interfaces.py`. -/
structure Interface where
  name : String
  enabled : Bool
  oper_status : String
  description : Option String := none
  line_protocol : Option String := none
  port_channel : Option PortChannel := none
  type : Option String := none
  mac_address : Option String := none
  ipv4 : List InterfaceIP := []
  ipv6 : List InterfaceIP := []
  delay : Option Int := none
  mtu : Option Int := none
  bandwidth : Option Int := none
  duplex_mode : Option String := none
  port_speed : Option String := none
  counters : Option InterfaceCounters := none
deriving DecidableEq, Repr

/-- One genie per-interface entry as `interfaces.netmiko_processor` reads
it: `.get` chains become `Option` fields, mandatory indexing plain
fields, the `ipv4`/`ipv6` dicts their key lists, the raw `port_channel`
dict the kwargs later fed to `PortChannel(**...)`. -/
structure GenieIntfParams where
  enabled : Bool
  oper_status : String
  description : Option String := none
  line_protocol : Option String := none
  port_channel : Option (List (String × PyVal)) := none
  type : Option String := none
  mac_address : Option String := none
  ipv4 : List String := []
  ipv6 : List String := []
  delay : Option Int := none
  mtu : Option Int := none
  bandwidth : Option Int := none
  duplex_mode : Option String := none
  port_speed : Option String := none
  counters : Option InterfaceCounters := none
deriving DecidableEq, Repr

/-- Python truthiness of the genie interfaces result (a dict keyed by
interface name). -/
def intfRawTruthy : Option (List (String × GenieIntfParams)) → Bool
  | none => false
  | some items => items ≠ []

/-- The `Interface` built from one genie entry (source lines 85–129).
`mac_converter` (netaddr `EUI` normalization, an external collaborator)
is passed as an oracle; calling it on a missing `mac_address` is the
`AttributeError` the source would raise on `None.startswith`. -/
def genieIntfToInterface (mac_converter : String → String) (name : String)
    (p : GenieIntfParams) : Except PyExn Interface :=
  let pc : Except PyExn (Option PortChannel) :=
    match p.port_channel with
    | none => .ok none
    | some kvs =>
      if kvs = [] then .ok none
      else
        match mkPortChannel kvs with
        | .ok x => .ok (some x)
        | .error e => .error (.validationError e)
  match pc with
  | .error e => .error e
  | .ok pcv =>
    match p.mac_address with
    | none => .error (.typeError "mac_converter called on None")
    | some mac =>
      .ok { name := name
            enabled := p.enabled
            oper_status := pyStrLower p.oper_status
            description := p.description
            line_protocol := p.line_protocol
            port_channel := pcv
            type := p.type
            mac_address := some (mac_converter mac)
            ipv4 := p.ipv4.map (fun ip => { address := some ip })
            ipv6 := p.ipv6.map (fun ip => { address := some ip })
            delay := p.delay
            mtu := p.mtu
            bandwidth := p.bandwidth
            duplex_mode := p.duplex_mode
            port_speed := p.port_speed
            counters := p.counters }

/-- `interfaces.netmiko_processor`.  NOTE: unlike the other processors it
takes ONE Command (not a list), so it has no `commands[0]` indexing and
no "No command found" guard at all; its only precondition is the
non-empty-result check. -/
def interfaces_netmiko_processor (mac_converter : String → String)
    (command : Command (List (String × GenieIntfParams)))
    (connector : ConnectParams) : Except PyExn (List Interface) :=
  if intfRawTruthy command.result = false then
    .error (.interfacesError "No result returned in Command")
  else if paramsTruthy command.params "use_genie" then
    match command.result with
    | some items =>
      items.mapM (fun np => genieIntfToInterface mac_converter np.1 np.2)
    | none => .error (.typeError "genie branch over an absent result")
  else .error (.notImplementedError "Not yet implemented for other methods")

/-- C4 (the code against the claim): the list-taking processors index
`commands[0]` BEFORE their `if not command:` guard, so an empty command
list raises `IndexError` — not the resource-specific
`...Error("No command found")` the claim (and the processors' own
docstrings) promise; the guard itself is dead code because a pydantic
model instance is always truthy.  The second precondition behaves as
claimed: a first command with an absent or empty result fails with
`...Error("No result returned in Command")` (for every processor,
including the single-command interfaces one, which has no
"no command found" guard at all). -/
theorem normalizer_preconditions (conn : ConnectParams)
    (cmdB : Command BgpRaw) (cmdP : Command (List NtcBgpRow))
    (mac : String → String)
    (cmdI : Command (List (String × GenieIntfParams))) :
    bgp_netmiko_processor [] conn = .error .indexError ∧
    bgp_pyez_processor [] conn = .error .indexError ∧
    ((Except.error PyExn.indexError : Except PyExn (List BgpSession))
      ≠ .error (.bgpSessionError "No command found")) ∧
    (bgpRawTruthy cmdB.result = false →
      bgp_netmiko_processor [cmdB] conn
        = .error (.bgpSessionError "No result returned in Command")) ∧
    (rowsTruthy cmdP.result = false →
      bgp_pyez_processor [cmdP] conn
        = .error (.bgpSessionError "No result returned in Command")) ∧
    (intfRawTruthy cmdI.result = false →
      interfaces_netmiko_processor mac cmdI conn
        = .error (.interfacesError "No result returned in Command")) := by
  refine ⟨rfl, rfl, by simp, ?_, ?_, ?_⟩
  · intro h
    simp [bgp_netmiko_processor, pydanticModelTruthy, h]
  · intro h
    simp [bgp_pyez_processor, pydanticModelTruthy, h]
  · intro h
    simp [interfaces_netmiko_processor, h]

/-- Witness for C4's theorem: the empty batch raises `IndexError`, and a
command with result `None` fails with the "no result" error. -/
theorem normalizer_preconditions_witness :
    bgp_netmiko_processor []
        ⟨"h", "cisco_xe", false, "u", "p", none, 60, 10, 22, 830⟩
      = .error .indexError ∧
    bgp_netmiko_processor
        [{ executor := "netmiko", collector := "bgp_session",
           collection_method := "ssh", command := "show bgp all neighbor" }]
        ⟨"h", "cisco_xe", false, "u", "p", none, 60, 10, 22, 830⟩
      = .error (.bgpSessionError "No result returned in Command") :=
  ⟨(normalizer_preconditions
      ⟨"h", "cisco_xe", false, "u", "p", none, 60, 10, 22, 830⟩
      { executor := "netmiko", collector := "bgp_session",
        collection_method := "ssh", command := "show bgp all neighbor" }
      { executor := "pyez", collector := "bgp_session",
        collection_method := "netconf",
        command := "get-bgp-neighbor-information" }
      id
      { executor := "netmiko", collector := "interface",
        collection_method := "ssh", command := "show interfaces" }).1,
   (normalizer_preconditions
      ⟨"h", "cisco_xe", false, "u", "p", none, 60, 10, 22, 830⟩
      { executor := "netmiko", collector := "bgp_session",
        collection_method := "ssh", command := "show bgp all neighbor" }
      { executor := "pyez", collector := "bgp_session",
        collection_method := "netconf",
        command := "get-bgp-neighbor-information" }
      id
      { executor := "netmiko", collector := "interface",
        collection_method := "ssh", command := "show interfaces" }).2.2.2.1
      rfl⟩

theorem intIfTruthy_eq_getD (v : Option Int) : intIfTruthy v = v.getD 0 := by
  cases v with
  | none => rfl
  | some n =>
    by_cases h : n = 0
    · simp [intIfTruthy, h]
    · simp [intIfTruthy, h]

/-- C7: in the PyEZ BGP-session processor the derived denied-prefix count
of every table row equals the pre-policy received count minus the
accepted count, each defaulting to 0 when its source field is absent (or
falsy); the derivation is total — it never raises; concretely,
pre-policy 100 with accepted 80 gives denied 20, and an absent accepted
count gives denied equal to the pre-policy count.  The last conjunct ties
the per-row derivation to the whole processor run. -/
theorem pyez_denied_prefix_derivation (item : NtcBgpRow) :
    (pyezRowToSession item).prefixes_denied
      = some (item.prefixes_received.getD 0 - item.prefixes_accepted.getD 0) ∧
    (item.prefixes_received = some 100 → item.prefixes_accepted = some 80 →
      (pyezRowToSession item).prefixes_denied = some 20) ∧
    (item.prefixes_accepted = none →
      (pyezRowToSession item).prefixes_denied
        = some (item.prefixes_received.getD 0)) ∧
    (∀ (conn : ConnectParams) (cmd : Command (List NtcBgpRow))
        (rows : List NtcBgpRow),
      cmd.result = some rows → rows ≠ [] →
      paramsTruthy cmd.params "table" = true →
      bgp_pyez_processor [cmd] conn = .ok (rows.map pyezRowToSession)) := by
  have hmain : (pyezRowToSession item).prefixes_denied
      = some (item.prefixes_received.getD 0 - item.prefixes_accepted.getD 0) := by
    simp [pyezRowToSession, intIfTruthy_eq_getD]
  refine ⟨hmain, ?_, ?_, ?_⟩
  · intro h1 h2
    rw [hmain, h1, h2]
    rfl
  · intro h1
    rw [hmain, h1]
    simp
  · intro conn cmd rows hres hne ht
    simp [bgp_pyez_processor, pydanticModelTruthy, rowsTruthy, hres, hne, ht]

/-- Witness for C7: a concrete row with pre-policy 100 and accepted 80
derives denied 20. -/
theorem pyez_denied_prefix_derivation_witness :
    (pyezRowToSession
        { local_address := "10.0.0.1", peer_address := "10.0.0.2+179",
          peer_type := "External", prefixes_accepted := some 80,
          prefixes_received := some 100,
          peer_state := "Established" }).prefixes_denied = some 20 :=
  (pyez_denied_prefix_derivation
      { local_address := "10.0.0.1", peer_address := "10.0.0.2+179",
        peer_type := "External", prefixes_accepted := some 80,
        prefixes_received := some 100,
        peer_state := "Established" }).2.1 rfl rfl

/-- The declared field names of `InterfaceIP`. -/
def isDeclaredIPKey (k : String) : Bool := k = "address" || k = "role"

theorem pyDictGet_filter (kwargs : List (String × PyVal)) (p : String → Bool)
    (key : String) (hk : p key = true) :
    pyDictGet (kwargs.filter (fun kv => p kv.1)) key = pyDictGet kwargs key := by
  induction kwargs with
  | nil => rfl
  | cons kv rest ih =>
    rw [List.filter_cons]
    by_cases hp : p kv.1
    · rw [if_pos (by simpa using hp)]
      by_cases hkv : kv.1 = key
      · simp [pyDictGet, List.find?_cons, hkv]
      · simpa [pyDictGet, List.find?_cons, hkv] using ih
    · rw [if_neg (by simpa using hp)]
      have hkv : kv.1 ≠ key := fun he => hp (he ▸ hk)
      simpa [pyDictGet, List.find?_cons, hkv] using ih

/-- C9 (amended): canonical records built on `BaseResourceModel`
(`extra = "ignore"`) drop undeclared input keys — construction depends
only on the declared keys, and the record type has no storage for the
rest — but `PortChannel` overrides the config with `extra = "allow"` and
STORES every undeclared input key on the record, so unrecognized vendor
fields inside a port-channel blob DO round-trip into the canonical
output. -/
theorem resource_model_extra_keys (kwargs : List (String × PyVal)) :
    mkInterfaceIP kwargs
      = mkInterfaceIP (kwargs.filter (fun kv => isDeclaredIPKey kv.1)) ∧
    (∀ (b : Bool) (extras : List (String × PyVal)),
      mkPortChannel kwargs = .ok ⟨b, extras⟩ →
      extras = kwargs.filter (fun kv => kv.1 ≠ "port_channel_member")) := by
  constructor
  · unfold mkInterfaceIP
    rw [pyDictGet_filter kwargs isDeclaredIPKey "address" (by decide),
      pyDictGet_filter kwargs isDeclaredIPKey "role" (by decide)]
  · intro b extras h
    unfold mkPortChannel at h
    rcases hg : pyDictGet kwargs "port_channel_member" with _ | v
    · simp only [hg] at h
      cases h
    · simp only [hg] at h
      rcases hb : coerceBool v with _ | b2
      · simp only [hb] at h
        cases h
      · simp only [hb, Except.ok.injEq, PortChannel.mk.injEq] at h
        exact h.2.symm

/-- Witness for C9: a port-channel blob with an unknown vendor key keeps
that key on the constructed record. -/
theorem resource_model_extra_keys_witness :
    [("vendor_flag", PyVal.str "x")]
      = ([("port_channel_member", PyVal.bool true),
          ("vendor_flag", PyVal.str "x")].filter
          (fun kv => kv.1 ≠ "port_channel_member")) :=
  (resource_model_extra_keys [("port_channel_member", .bool true),
      ("vendor_flag", .str "x")]).2 true [("vendor_flag", .str "x")] rfl

/-- C9 counterexample: unrecognized input keys are NOT always dropped.
`PortChannel` (a nested sub-model of the canonical `Interface` record,
built from the raw genie `port_channel` blob) declares
`extra = "allow"`: constructing it with the unknown key `vendor_flag`
stores that key on the record — the claim's "never stored on the
record" fails. -/
theorem portchannel_stores_extra_keys :
    mkPortChannel [("port_channel_member", .bool true),
        ("vendor_flag", .str "x")]
      = .ok ⟨true, [("vendor_flag", .str "x")]⟩ ∧
    ([("vendor_flag", PyVal.str "x")] : List (String × PyVal)) ≠ [] := by
  refine ⟨rfl, by decide⟩

end NetCollector
